import Mathlib

/-!
# CryMP client: synched storage (`Code/CryGame/SynchedStorage.h`)

A shallow embedding of `CSynchedStorage`, the scoped key/value store whose typed
setters detect changes and call the `On...Changed` hooks.

* `std::map` is an association list kept in ascending key order (the lemmas on
  it hold for every list of entries),
* a `TSynchedValue` is a tagged cell,
* member functions take the object as `self` and return the new object,
* the virtual hooks `OnGlobalChanged`, `OnChannelChanged`, `OnEntityChanged` are
  recorded: a setter returns the list of hook calls it made, each with its
  arguments and the object as it was when the hook was entered,
* a `bool f(..., T & out)` getter returns `Option T`: `some v` for `true` with
  `out = v`, `none` for `false`.

The file also embeds `HTTP::URLEncode` (`Code/Client/HTTP.cpp`) as a function on
lists of bytes.
-/

namespace CryMP

/-! ## Primitive payload types -/

/-- The C++ type `float`: an IEEE-754 binary32 value, kept as its 32-bit pattern
(bit 31 sign, bits 30..23 exponent, bits 22..0 fraction). -/
structure float32 where
  bits : Fin 4294967296
  deriving DecidableEq, Repr

namespace float32

/-- Biased exponent field. -/
def exponent (x : float32) : Nat := (x.bits.val / 8388608) % 256

/-- Fraction field. -/
def fraction (x : float32) : Nat := x.bits.val % 8388608

/-- Not-a-number: exponent all ones, fraction non-zero. -/
def isNaN (x : float32) : Bool := x.exponent == 255 && x.fraction != 0

/-- Positive or negative zero. -/
def isZero (x : float32) : Bool := x.exponent == 0 && x.fraction == 0

/-- The built-in `a != b` on `float`: true when either side is a NaN; otherwise
false exactly when both are the same number, that is the same bit pattern or two
zeros of any sign. -/
def ne (a b : float32) : Bool :=
  a.isNaN || b.isNaN || !(decide (a = b) || (a.isZero && b.isZero))

/-- The constant `0.0f`. -/
def posZero : float32 := ⟨0⟩

/-- The constant `-0.0f`. -/
def negZero : float32 := ⟨2147483648⟩

/-- A quiet NaN, the value of `std::numeric_limits<float>::quiet_NaN()`. -/
def quietNaN : float32 := ⟨2143289344⟩

/-- The constant `3.14f`. -/
def pi314 : float32 := ⟨1078523331⟩

end float32

/-- `TSynchedKey = uint16`. Keys are only compared, never computed with. -/
abbrev TSynchedKey := Nat

/-- `EntityId`, an unsigned 32-bit identifier. Only compared. -/
abbrev EntityId := Nat

/-! ## The type list and the tag enumeration -/

/-- The members of `TSynchedValueTypes = CConstruct<bool, float, int, EntityId, string>`:
the possible template arguments `ValueType` of the typed setters and getters. -/
inductive ValueType
  | bool
  | float
  | int
  | EntityId
  | string
  deriving DecidableEq, Repr

namespace ValueType

/-- The C++ type a template argument stands for. -/
@[reducible] def carrier : ValueType → Type
  | .bool => Bool
  | .float => float32
  | .int => Int
  | .EntityId => CryMP.EntityId
  | .string => String

/-- `NTypelist::IndexOf<T, TSynchedValueTypes>::value`: the position in the list. -/
def IndexOf : ValueType → Int
  | .bool => 0
  | .float => 1
  | .int => 2
  | .EntityId => 3
  | .string => 4

/-- The operator `a != b` of each payload type. -/
def ne : (T : ValueType) → T.carrier → T.carrier → Bool
  | .bool, a, b => a != b
  | .float, a, b => float32.ne a b
  | .int, a, b => a != b
  | .EntityId, a, b => a != b
  | .string, a, b => a != b

instance instDecidableEqCarrier : (T : ValueType) → DecidableEq T.carrier
  | .bool => inferInstanceAs (DecidableEq Bool)
  | .float => inferInstanceAs (DecidableEq float32)
  | .int => inferInstanceAs (DecidableEq Int)
  | .EntityId => inferInstanceAs (DecidableEq Nat)
  | .string => inferInstanceAs (DecidableEq String)

end ValueType

/-- `eSVT_None = -1`. -/
def eSVT_None : Int := -1
/-- `eSVT_Bool`. -/
def eSVT_Bool : Int := ValueType.IndexOf .bool
/-- `eSVT_Float`. -/
def eSVT_Float : Int := ValueType.IndexOf .float
/-- `eSVT_Int`. -/
def eSVT_Int : Int := ValueType.IndexOf .int
/-- `eSVT_EntityId`. -/
def eSVT_EntityId : Int := ValueType.IndexOf .EntityId
/-- `eSVT_String`. -/
def eSVT_String : Int := ValueType.IndexOf .string

/-! ## The value cell -/

/-- Modelled from the spec: `CConfigurableVariant` (included from
`CryCommon/CryCore/ConfigurableVariant.h`) is not among the sources. The spec's
Value Cell holds exactly one of the five kinds together with its tag; a cell that
was never set has the tag "none". -/
inductive TSynchedValue
  | empty
  | bool (b : Bool)
  | float (f : float32)
  | int (i : Int)
  | EntityId (e : CryMP.EntityId)
  | string (s : String)
  deriving DecidableEq, Repr

namespace TSynchedValue

/-- Modelled from the spec: `Set<T>(value)` of the missing `CConfigurableVariant`
"stores `value` and sets the tag to `T`'s kind, discarding any previous
payload/tag". -/
def Set (_self : TSynchedValue) : (T : ValueType) → T.carrier → TSynchedValue
  | .bool, v => .bool v
  | .float, v => .float v
  | .int, v => .int v
  | .EntityId, v => .EntityId v
  | .string, v => .string v

/-- Modelled from the spec: `GetPtr<T>()` of the missing `CConfigurableVariant`,
the spec's `TryGet<T>`, "returns the payload iff the current tag equals `T`'s
kind"; `none` is the null pointer. -/
def GetPtr : (T : ValueType) → TSynchedValue → Option T.carrier
  | .bool, .bool b => some b
  | .float, .float f => some f
  | .int, .int i => some i
  | .EntityId, .EntityId e => some e
  | .string, .string s => some s
  | _, _ => none

/-- Modelled from the spec: `GetType()` of the missing `CConfigurableVariant`,
the spec's `Tag()`, "returns the current tag, or none if never set". -/
def GetType : TSynchedValue → Int
  | .empty => eSVT_None
  | .bool _ => eSVT_Bool
  | .float _ => eSVT_Float
  | .int _ => eSVT_Int
  | .EntityId _ => eSVT_EntityId
  | .string _ => eSVT_String

end TSynchedValue

/-! ## `std::map` -/

/-- The entries of a `std::map<K, V>`, in iteration order (ascending keys). -/
abbrev StdMap (K V : Type) := List (K × V)

namespace StdMap

variable {K V : Type}

/-- `m.find(key)`: the mapped value of the entry found, `none` for `m.end()`. -/
def find [DecidableEq K] : StdMap K V → K → Option V
  | [], _ => none
  | (k, v) :: rest, key => if k = key then some v else find rest key

/-- Insertion of a new entry at its place in the key order. -/
def emplace [LT K] [DecidableRel (LT.lt : K → K → Prop)] : StdMap K V → K → V → StdMap K V
  | [], key, value => [(key, value)]
  | (k, v) :: rest, key, value =>
    if key < k then (key, value) :: (k, v) :: rest else (k, v) :: emplace rest key value

/-- `m[key]`: when `key` has no entry, one with a default-constructed value is
inserted; the reference returned is the entry of `key` in the resulting map. -/
def subscript [DecidableEq K] [LT K] [DecidableRel (LT.lt : K → K → Prop)]
    (m : StdMap K V) (key : K) (dflt : V) : StdMap K V :=
  match find m key with
  | some _ => m
  | none => emplace m key dflt

/-- A write through an iterator or reference to the entry of `key`: the mapped
value `v` becomes `f v`. -/
def modify [DecidableEq K] : StdMap K V → K → (V → V) → StdMap K V
  | [], _, _ => []
  | (k, v) :: rest, key, f =>
    if k = key then (k, f v) :: rest else (k, v) :: modify rest key f

end StdMap

/-! ## The storage directory -/

/-- `CSynchedStorage::TStorage = std::map<TSynchedKey, TSynchedValue>`. -/
abbrev TStorage := StdMap TSynchedKey TSynchedValue

/-- `CSynchedStorage::TEntityStorageMap = std::map<EntityId, TStorage>`. -/
abbrev TEntityStorageMap := StdMap EntityId TStorage

/-- `CSynchedStorage::TChannelStorageMap = std::map<int, TStorage>`. -/
abbrev TChannelStorageMap := StdMap Int TStorage

/-- The part of the engine interface `INetChannel` that the storage uses. -/
structure INetChannel where
  IsLocal : Bool

/-- The part of the engine interface `IGameFramework` that the storage uses:
`GetNetChannel(channelId)` returns a channel or the null pointer. -/
structure IGameFramework where
  GetNetChannel : Int → Option INetChannel

/-- The data members of `CSynchedStorage` (lines 33 to 38). `m_pGameFramework`
is a pointer, `none` being `nullptr`, its default. -/
structure CSynchedStorage where
  m_globalStorage : TStorage
  m_channelStorage : TStorage
  m_entityStorage : TEntityStorageMap
  m_channelStorageMap : TChannelStorageMap
  m_pGameFramework : Option IGameFramework

/-- One call of a change hook: the object as it was when the hook was entered,
and the arguments of the call. -/
inductive HookCall
  | OnGlobalChanged (self : CSynchedStorage) (key : TSynchedKey) (value : TSynchedValue)
  | OnChannelChanged (self : CSynchedStorage) (channelId : Int) (key : TSynchedKey)
      (value : TSynchedValue)
  | OnEntityChanged (self : CSynchedStorage) (id : EntityId) (key : TSynchedKey)
      (value : TSynchedValue)

/-- Undefined behaviour the member functions can run into. -/
inductive Fault
  | nullDereference
  | invalidPointer
  deriving DecidableEq, Repr

/-- A `TStorage *` that points into the object: at `m_channelStorage`, at the
mapped value of an entry of `m_channelStorageMap`, or of `m_entityStorage`. -/
inductive TStoragePtr
  | channelStorage
  | channelStorageMap (channelId : Int)
  | entityStorage (id : EntityId)
  deriving DecidableEq, Repr

namespace CSynchedStorage

/-- The object after the defaulted constructor `CSynchedStorage() = default`. -/
def fresh : CSynchedStorage :=
  { m_globalStorage := [], m_channelStorage := [], m_entityStorage := [],
    m_channelStorageMap := [], m_pGameFramework := none }

/-- The map a pointer refers to, `none` when it refers to no entry. -/
def deref (self : CSynchedStorage) : TStoragePtr → Option TStorage
  | .channelStorage => some self.m_channelStorage
  | .channelStorageMap channelId => StdMap.find self.m_channelStorageMap channelId
  | .entityStorage id => StdMap.find self.m_entityStorage id

/-- A write through a pointer: the map it refers to becomes `f` of it. -/
def write (self : CSynchedStorage) : TStoragePtr → (TStorage → TStorage) → CSynchedStorage
  | .channelStorage, f => { self with m_channelStorage := f self.m_channelStorage }
  | .channelStorageMap channelId, f =>
    { self with m_channelStorageMap := StdMap.modify self.m_channelStorageMap channelId f }
  | .entityStorage id, f =>
    { self with m_entityStorage := StdMap.modify self.m_entityStorage id f }

/-! ### Global scope -/

/-- The comparison `!pStoredValue || *pStoredValue != value` of the typed setters. -/
def differs (T : ValueType) (stored : TSynchedValue) (value : T.carrier) : Bool :=
  match stored.GetPtr T with
  | none => true
  | some storedValue => T.ne storedValue value

/-- The template `SetGlobalValue<ValueType>(key, value)`, lines 45 to 66. The
references `newValue` and `it->second` denote the entry of `key`, whose content
after `Set(value)` is passed to the hook. -/
def SetGlobalValue (self : CSynchedStorage) (T : ValueType) (key : TSynchedKey)
    (value : T.carrier) : CSynchedStorage × List HookCall :=
  match StdMap.find self.m_globalStorage key with
  | none =>
    -- TSynchedValue & newValue = m_globalStorage[key];
    let self1 := { self with
      m_globalStorage := StdMap.subscript self.m_globalStorage key TSynchedValue.empty }
    -- newValue.Set(value);
    let self2 := { self1 with
      m_globalStorage := StdMap.modify self1.m_globalStorage key (fun c => c.Set T value) }
    -- OnGlobalChanged(key, newValue);
    (self2, [HookCall.OnGlobalChanged self2 key (TSynchedValue.empty.Set T value)])
  | some second =>
    if differs T second value then
      -- it->second.Set(value);
      let self1 := { self with
        m_globalStorage := StdMap.modify self.m_globalStorage key (fun c => c.Set T value) }
      -- OnGlobalChanged(key, it->second);
      (self1, [HookCall.OnGlobalChanged self1 key (second.Set T value)])
    else
      (self, [])

/-- The overload `SetGlobalValue(key, const TSynchedValue & value)`, lines 68 to 74. -/
def SetGlobalValue_TSynchedValue (self : CSynchedStorage) (key : TSynchedKey)
    (value : TSynchedValue) : CSynchedStorage × List HookCall :=
  -- m_globalStorage[key] = value;
  let self1 := { self with
    m_globalStorage := StdMap.subscript self.m_globalStorage key TSynchedValue.empty }
  let self2 := { self1 with
    m_globalStorage := StdMap.modify self1.m_globalStorage key (fun _ => value) }
  -- OnGlobalChanged(key, value);
  (self2, [HookCall.OnGlobalChanged self2 key value])

/-- The template `GetGlobalValue<ValueType>(key, value)`, lines 154 to 172. -/
def GetGlobalValue (self : CSynchedStorage) (T : ValueType) (key : TSynchedKey) :
    Option T.carrier :=
  match StdMap.find self.m_globalStorage key with
  | none => none
  | some second =>
    match second.GetPtr T with
    | none => none
    | some storedValue => some storedValue

/-- The overload `GetGlobalValue(key, TSynchedValue & value)`, lines 174 to 185. -/
def GetGlobalValue_TSynchedValue (self : CSynchedStorage) (key : TSynchedKey) :
    Option TSynchedValue :=
  match StdMap.find self.m_globalStorage key with
  | none => none
  | some second => some second

/-- The member `GetGlobalValueType(key)`, lines 322 to 331. -/
def GetGlobalValueType (self : CSynchedStorage) (key : TSynchedKey) : Int :=
  match StdMap.find self.m_globalStorage key with
  | none => eSVT_None
  | some second => second.GetType

/-! ### Storage locators -/

/-- The type of the virtual members `GetEntityStorage(id, create)` and
`GetChannelStorage(channelId, create)`: the object afterwards, and the pointer
returned (`none` for null). -/
abbrev Locator (I : Type) := CSynchedStorage → I → Bool → CSynchedStorage × Option TStoragePtr

/-- Modelled from the spec: `GetEntityStorage` is declared at line 357 and defined
outside the sources. "Tiers for a given connection/object are created lazily on
first write, never on read": the map of `id` when there is one; otherwise, with
`create`, a new empty map for `id`; otherwise null. -/
def GetEntityStorage : Locator EntityId := fun self id create =>
  match StdMap.find self.m_entityStorage id with
  | some _ => (self, some (.entityStorage id))
  | none =>
    if create then
      ({ self with m_entityStorage := StdMap.emplace self.m_entityStorage id [] },
        some (.entityStorage id))
    else
      (self, none)

/-- Modelled from the spec: `GetChannelStorage` is declared at line 358 and defined
outside the sources. "Tiers for a given connection/object are created lazily on
first write, never on read": the map of `channelId` when there is one; otherwise,
with `create`, a new empty map for `channelId`; otherwise null. -/
def GetChannelStorage : Locator Int := fun self channelId create =>
  match StdMap.find self.m_channelStorageMap channelId with
  | some _ => (self, some (.channelStorageMap channelId))
  | none =>
    if create then
      ({ self with m_channelStorageMap := StdMap.emplace self.m_channelStorageMap channelId [] },
        some (.channelStorageMap channelId))
    else
      (self, none)

/-- The common body of the typed setters once the map `*pStorage` is located
(lines 85 to 102 and 124 to 141): the write, if any, and whether the hook is
called and with which cell. -/
def setTyped (T : ValueType) (storage : TStorage) (key : TSynchedKey) (value : T.carrier) :
    TStorage × Option TSynchedValue :=
  match StdMap.find storage key with
  | none =>
    -- TSynchedValue & newValue = (*pStorage)[key]; newValue.Set(value);
    (StdMap.modify (StdMap.subscript storage key TSynchedValue.empty) key
        (fun c => c.Set T value),
      some (TSynchedValue.empty.Set T value))
  | some second =>
    if differs T second value then
      -- it->second.Set(value);
      (StdMap.modify storage key (fun c => c.Set T value), some (second.Set T value))
    else
      (storage, none)

/-! ### Channel scope -/

/-- The template `SetChannelValue<ValueType>(channelId, key, value)`, lines 76 to
103, with the virtual `GetChannelStorage` as a parameter. -/
def SetChannelValue (getChannelStorage : Locator Int) (self : CSynchedStorage) (T : ValueType)
    (channelId : Int) (key : TSynchedKey) (value : T.carrier) :
    Except Fault (CSynchedStorage × List HookCall) :=
  match getChannelStorage self channelId true with
  | (self1, none) => .ok (self1, [])
  | (self1, some pStorage) =>
    match self1.deref pStorage with
    | none => .error .invalidPointer
    | some storage =>
      match setTyped T storage key value with
      | (storage1, some cell) =>
        let self2 := self1.write pStorage (fun _ => storage1)
        .ok (self2, [HookCall.OnChannelChanged self2 channelId key cell])
      | (_, none) => .ok (self1, [])

/-- The overload `SetChannelValue(channelId, key, const TSynchedValue & value)`,
lines 105 to 117, with the virtual `GetChannelStorage` as a parameter. -/
def SetChannelValue_TSynchedValue (getChannelStorage : Locator Int) (self : CSynchedStorage)
    (channelId : Int) (key : TSynchedKey) (value : TSynchedValue) :
    Except Fault (CSynchedStorage × List HookCall) :=
  match getChannelStorage self channelId true with
  | (self1, none) => .ok (self1, [])
  | (self1, some pStorage) =>
    match self1.deref pStorage with
    | none => .error .invalidPointer
    | some _ =>
      -- (*pStorage)[key] = value;
      let self2 := self1.write pStorage (fun storage =>
        StdMap.modify (StdMap.subscript storage key TSynchedValue.empty) key (fun _ => value))
      .ok (self2, [HookCall.OnChannelChanged self2 channelId key value])

/-- The template `GetChannelValue<ValueType>(key, value)` on `m_channelStorage`,
lines 244 to 262. -/
def GetChannelValue_local (self : CSynchedStorage) (T : ValueType) (key : TSynchedKey) :
    Option T.carrier :=
  match StdMap.find self.m_channelStorage key with
  | none => none
  | some second =>
    match second.GetPtr T with
    | none => none
    | some storedValue => some storedValue

/-- The overload `GetChannelValue(key, TSynchedValue & value)` on
`m_channelStorage`, lines 264 to 275. -/
def GetChannelValue_local_TSynchedValue (self : CSynchedStorage) (key : TSynchedKey) :
    Option TSynchedValue :=
  match StdMap.find self.m_channelStorage key with
  | none => none
  | some second => some second

/-- The test `pNetChannel && pNetChannel->IsLocal()` on the result of
`m_pGameFramework->GetNetChannel(channelId)`, lines 193 to 194; the call through a
null `m_pGameFramework` is a fault. -/
def netChannelIsLocal (self : CSynchedStorage) (channelId : Int) : Except Fault Bool :=
  match self.m_pGameFramework with
  | none => .error .nullDereference
  | some pGameFramework =>
    match pGameFramework.GetNetChannel channelId with
    | none => .ok false
    | some pNetChannel => .ok pNetChannel.IsLocal

/-- The template `GetChannelValue<ValueType>(channelId, key, value)`, lines 187 to
217. -/
def GetChannelValue (self : CSynchedStorage) (T : ValueType) (channelId : Int)
    (key : TSynchedKey) : Except Fault (Option T.carrier) :=
  match StdMap.find self.m_channelStorageMap channelId with
  | none =>
    match netChannelIsLocal self channelId with
    | .error e => .error e
    | .ok true => .ok (GetChannelValue_local self T key)
    | .ok false => .ok none
  | some storage =>
    match StdMap.find storage key with
    | none => .ok none
    | some second =>
      match second.GetPtr T with
      | none => .ok none
      | some storedValue => .ok (some storedValue)

/-- The overload `GetChannelValue(channelId, key, TSynchedValue & value)`, lines
219 to 242. -/
def GetChannelValue_TSynchedValue (self : CSynchedStorage) (channelId : Int)
    (key : TSynchedKey) : Except Fault (Option TSynchedValue) :=
  match StdMap.find self.m_channelStorageMap channelId with
  | none =>
    match netChannelIsLocal self channelId with
    | .error e => .error e
    | .ok true => .ok (GetChannelValue_local_TSynchedValue self key)
    | .ok false => .ok none
  | some storage =>
    match StdMap.find storage key with
    | none => .ok none
    | some second => .ok (some second)

/-! ### Entity scope -/

/-- The template `SetEntityValue<ValueType>(id, key, value)`, lines 119 to 142,
with the virtual `GetEntityStorage` as a parameter; its result is dereferenced
unchecked. -/
def SetEntityValue (getEntityStorage : Locator EntityId) (self : CSynchedStorage)
    (T : ValueType) (id : EntityId) (key : TSynchedKey) (value : T.carrier) :
    Except Fault (CSynchedStorage × List HookCall) :=
  match getEntityStorage self id true with
  | (_, none) => .error .nullDereference
  | (self1, some pStorage) =>
    match self1.deref pStorage with
    | none => .error .invalidPointer
    | some storage =>
      match setTyped T storage key value with
      | (storage1, some cell) =>
        let self2 := self1.write pStorage (fun _ => storage1)
        .ok (self2, [HookCall.OnEntityChanged self2 id key cell])
      | (_, none) => .ok (self1, [])

/-- The overload `SetEntityValue(id, key, const TSynchedValue & value)`, lines 144
to 152, with the virtual `GetEntityStorage` as a parameter. -/
def SetEntityValue_TSynchedValue (getEntityStorage : Locator EntityId)
    (self : CSynchedStorage) (id : EntityId) (key : TSynchedKey) (value : TSynchedValue) :
    Except Fault (CSynchedStorage × List HookCall) :=
  match getEntityStorage self id true with
  | (_, none) => .error .nullDereference
  | (self1, some pStorage) =>
    match self1.deref pStorage with
    | none => .error .invalidPointer
    | some _ =>
      -- storage[key] = value;
      let self2 := self1.write pStorage (fun storage =>
        StdMap.modify (StdMap.subscript storage key TSynchedValue.empty) key (fun _ => value))
      .ok (self2, [HookCall.OnEntityChanged self2 id key value])

/-- The template `GetEntityValue<ValueType>(entityId, key, value)`, lines 277 to
301. -/
def GetEntityValue (self : CSynchedStorage) (T : ValueType) (entityId : EntityId)
    (key : TSynchedKey) : Option T.carrier :=
  match StdMap.find self.m_entityStorage entityId with
  | none => none
  | some storage =>
    match StdMap.find storage key with
    | none => none
    | some second =>
      match second.GetPtr T with
      | none => none
      | some storedValue => some storedValue

/-- The overload `GetEntityValue(entityId, key, TSynchedValue & value)`, lines 303
to 320. -/
def GetEntityValue_TSynchedValue (self : CSynchedStorage) (entityId : EntityId)
    (key : TSynchedKey) : Option TSynchedValue :=
  match StdMap.find self.m_entityStorage entityId with
  | none => none
  | some storage =>
    match StdMap.find storage key with
    | none => none
    | some second => some second

/-- The member `GetEntityValueType(id, key)`, lines 333 to 348. -/
def GetEntityValueType (self : CSynchedStorage) (id : EntityId) (key : TSynchedKey) : Int :=
  match StdMap.find self.m_entityStorage id with
  | none => eSVT_None
  | some storage =>
    match StdMap.find storage key with
    | none => eSVT_None
    | some second => second.GetType

end CSynchedStorage

/-! ## Sample objects and call sequences -/

/-- A transport that knows channel 4 as the local one and channel 3 as a remote
one, and no other channel. -/
def sampleFramework : IGameFramework :=
  { GetNetChannel := fun channelId =>
      if channelId = 4 then some { IsLocal := true }
      else if channelId = 3 then some { IsLocal := false }
      else none }

/-- An object with `true` under global key 5, the string "ready" under key 2 of
`m_channelStorage`, `7 : int` under key 1 of entity 99, a map for channel 7 and
the sample transport attached. -/
def sample : CSynchedStorage :=
  { m_globalStorage := [(5, .bool true)]
    m_channelStorage := [(2, .string "ready")]
    m_entityStorage := [(99, [(1, .int 7)])]
    m_channelStorageMap := [(7, [(3, .int 1)])]
    m_pGameFramework := some sampleFramework }

namespace CSynchedStorage

end CSynchedStorage

/-! ## Sequences of setter calls and the stored tags -/

/-- One call of one of the six setters, with its arguments. -/
inductive SetterCall
  | SetGlobalValue (T : ValueType) (key : TSynchedKey) (value : T.carrier)
  | SetGlobalValue_TSynchedValue (key : TSynchedKey) (value : TSynchedValue)
  | SetChannelValue (T : ValueType) (channelId : Int) (key : TSynchedKey) (value : T.carrier)
  | SetChannelValue_TSynchedValue (channelId : Int) (key : TSynchedKey) (value : TSynchedValue)
  | SetEntityValue (T : ValueType) (id : EntityId) (key : TSynchedKey) (value : T.carrier)
  | SetEntityValue_TSynchedValue (id : EntityId) (key : TSynchedKey) (value : TSynchedValue)

namespace SetterCall

/-- The call made on an object, with the lazily creating locators. -/
def apply (self : CSynchedStorage) :
    SetterCall → Except Fault (CSynchedStorage × List HookCall)
  | .SetGlobalValue T key value => .ok (self.SetGlobalValue T key value)
  | .SetGlobalValue_TSynchedValue key value => .ok (self.SetGlobalValue_TSynchedValue key value)
  | .SetChannelValue T channelId key value =>
    CSynchedStorage.SetChannelValue CSynchedStorage.GetChannelStorage self T channelId key value
  | .SetChannelValue_TSynchedValue channelId key value =>
    CSynchedStorage.SetChannelValue_TSynchedValue CSynchedStorage.GetChannelStorage self
      channelId key value
  | .SetEntityValue T id key value =>
    CSynchedStorage.SetEntityValue CSynchedStorage.GetEntityStorage self T id key value
  | .SetEntityValue_TSynchedValue id key value =>
    CSynchedStorage.SetEntityValue_TSynchedValue CSynchedStorage.GetEntityStorage self
      id key value

/-- Whether the cell an untyped setter is given carries one of the five tags; a
typed setter is given a value, not a cell. -/
def passesTaggedCell : SetterCall → Bool
  | .SetGlobalValue_TSynchedValue _ value => value.GetType != eSVT_None
  | .SetChannelValue_TSynchedValue _ _ value => value.GetType != eSVT_None
  | .SetEntityValue_TSynchedValue _ _ value => value.GetType != eSVT_None
  | _ => true

end SetterCall

namespace CSynchedStorage

/-- A sequence of setter calls made one after the other: the object after the
last call, or the fault that stopped the sequence. -/
def runSetters (self : CSynchedStorage) : List SetterCall → Except Fault CSynchedStorage
  | [] => .ok self
  | call :: rest =>
    match call.apply self with
    | .error e => .error e
    | .ok (self1, _) => runSetters self1 rest

/-- No cell of the map carries the tag `eSVT_None`. -/
def storageNoneFree (storage : TStorage) : Bool :=
  storage.all (fun entry => entry.2.GetType != eSVT_None)

/-- No cell stored anywhere in the object carries the tag `eSVT_None`. -/
def noneFree (self : CSynchedStorage) : Bool :=
  storageNoneFree self.m_globalStorage
    && storageNoneFree self.m_channelStorage
    && self.m_entityStorage.all (fun entry => storageNoneFree entry.2)
    && self.m_channelStorageMap.all (fun entry => storageNoneFree entry.2)

/-- A `GetChannelStorage` override that yields no map. -/
def noChannelStorage : Locator Int := fun self _ _ => (self, none)

end CSynchedStorage

/-! ## `HTTP::URLEncode` (`Code/Client/HTTP.cpp`) -/

namespace HTTP

/-- One `char` of a `std::string`, kept as the value of its byte read as
`unsigned char`. -/
abbrev Byte := Fin 256

/-- The value of a `char` in a comparison, after promotion to `int`: the byte
itself where `char` is unsigned, the byte minus 256 from 128 on where `char` is
signed (as on the x86 targets of the client). -/
def charValue (charIsSigned : Bool) (ch : Byte) : Int :=
  if charIsSigned && decide (128 ≤ ch.val) then (ch.val : Int) - 256 else (ch.val : Int)

/-- The conversion of an `int` to `char` on return: the value modulo 256. -/
def toChar (value : Int) : Byte := Fin.ofNat (value % 256).toNat

/-- `HexDigitToChar(int digit)`, lines 5 to 8:
`(digit < 10) ? '0' + digit : 'A' + (digit - 10)`, with `'0'` = 48, `'A'` = 65. -/
def HexDigitToChar (digit : Int) : Byte :=
  toChar (if digit < 10 then 48 + digit else 65 + (digit - 10))

/-- `HTTP::URLEncode(text)`, lines 41 to 69: the loop over the characters of
`text`, appending to `result`. The character constants are `'a'` = 97, `'z'` =
122, `'A'` = 65, `'Z'` = 90, `'0'` = 48, `'9'` = 57, `'.'` = 46, `'-'` = 45,
`'_'` = 95, `'%'` = 37. -/
def URLEncode (charIsSigned : Bool) (text : List Byte) : List Byte :=
  text.foldl (fun result ch =>
    let c := charValue charIsSigned ch
    if (c ≥ 97 ∧ c ≤ 122) ∨ (c ≥ 65 ∧ c ≤ 90) ∨ (c ≥ 48 ∧ c ≤ 57)
        ∨ c = 46 ∨ c = 45 ∨ c = 95 then
      -- result += ch;
      result ++ [ch]
    else
      -- int code = static_cast<unsigned char>(ch);
      let code : Nat := ch.val
      -- result += '%'; result += HexDigitToChar(code >> 4); result += HexDigitToChar(code & 0xF);
      ((result ++ [(37 : Byte)]) ++ [HexDigitToChar ((code >>> 4 : Nat) : Int)])
        ++ [HexDigitToChar ((code &&& 0xF : Nat) : Int)]) []

/-- The unreserved set of claim C18: a byte in `'a'..'z'`, `'A'..'Z'`, `'0'..'9'`,
or one of `'.'`, `'-'`, `'_'`. -/
def isUnreserved (b : Byte) : Bool :=
  ('a'.toNat ≤ b.val && b.val ≤ 'z'.toNat) || ('A'.toNat ≤ b.val && b.val ≤ 'Z'.toNat)
    || ('0'.toNat ≤ b.val && b.val ≤ '9'.toNat)
    || b.val == '.'.toNat || b.val == '-'.toNat || b.val == '_'.toNat

/-- The upper-case hexadecimal digit of a number below 16, as a character. -/
def upperHexDigit (n : Nat) : Byte :=
  Fin.ofNat
    (['0', '1', '2', '3', '4', '5', '6', '7', '8', '9', 'A', 'B', 'C', 'D', 'E', 'F'].getD n
      '0').toNat

/-- The piece of claim C18 for one input byte: the byte itself if unreserved,
otherwise `'%'` and the two upper-case hexadecimal digits of the byte, high
nibble first. -/
def encodedPiece (b : Byte) : List Byte :=
  if isUnreserved b then [b]
  else [Fin.ofNat '%'.toNat, upperHexDigit (b.val / 16), upperHexDigit (b.val % 16)]

/-- The output format of claim C18: the pieces of the input bytes, concatenated
in order. -/
def URLEncodeFormat (s : List Byte) : List Byte := s.flatMap encodedPiece

end HTTP

/-! ## Lemmas on `std::map` -/

namespace StdMap

variable {K V : Type}

theorem find_modify_self [DecidableEq K] (m : StdMap K V) (key : K) (f : V → V) :
    find (modify m key f) key = (find m key).map f := by
  induction m with
  | nil => rfl
  | cons e rest ih =>
    obtain ⟨k, v⟩ := e
    by_cases h : k = key
    · simp [modify, find, h]
    · simp [modify, find, h, ih]

theorem find_modify_of_ne [DecidableEq K] (m : StdMap K V) (key other : K) (f : V → V)
    (h : other ≠ key) : find (modify m key f) other = find m other := by
  induction m with
  | nil => rfl
  | cons e rest ih =>
    obtain ⟨k, v⟩ := e
    by_cases hk : k = key
    · subst hk
      have hko : ¬ k = other := fun h2 => h h2.symm
      simp [modify, find, hko]
    · by_cases ho : k = other
      · subst ho
        simp [modify, find, hk]
      · simp [modify, find, hk, ho, ih]

theorem modify_of_find_none [DecidableEq K] (m : StdMap K V) (key : K) (f : V → V)
    (h : find m key = none) : modify m key f = m := by
  induction m with
  | nil => rfl
  | cons e rest ih =>
    obtain ⟨k, v⟩ := e
    by_cases hk : k = key
    · simp [find, hk] at h
    · simp only [find, hk, if_false] at h
      simp [modify, hk, ih h]

theorem find_emplace_self [DecidableEq K] [LT K] [DecidableRel (LT.lt : K → K → Prop)]
    (m : StdMap K V) (key : K) (value : V) (h : find m key = none) :
    find (emplace m key value) key = some value := by
  induction m with
  | nil => simp [emplace, find]
  | cons e rest ih =>
    obtain ⟨k, v⟩ := e
    by_cases hk : k = key
    · simp [find, hk] at h
    · simp only [find, hk, if_false] at h
      by_cases hlt : key < k
      · simp [emplace, find, hlt]
      · simp [emplace, find, hlt, hk, ih h]

theorem find_emplace_of_ne [DecidableEq K] [LT K] [DecidableRel (LT.lt : K → K → Prop)]
    (m : StdMap K V) (key other : K) (value : V) (h : other ≠ key) :
    find (emplace m key value) other = find m other := by
  have hne : ¬ key = other := fun h2 => h h2.symm
  induction m with
  | nil => simp [emplace, find, hne]
  | cons e rest ih =>
    obtain ⟨k, v⟩ := e
    by_cases hlt : key < k
    · simp [emplace, find, hlt, hne]
    · by_cases ho : k = other
      · subst ho
        simp [emplace, find, hlt]
      · simp [emplace, find, hlt, ho, ih]

theorem find_subscript_self [DecidableEq K] [LT K] [DecidableRel (LT.lt : K → K → Prop)]
    (m : StdMap K V) (key : K) (dflt : V) :
    find (subscript m key dflt) key = some ((find m key).getD dflt) := by
  unfold subscript
  cases h : find m key with
  | none => simpa using find_emplace_self m key dflt h
  | some v => simpa using h

theorem find_subscript_of_ne [DecidableEq K] [LT K] [DecidableRel (LT.lt : K → K → Prop)]
    (m : StdMap K V) (key other : K) (dflt : V) (h : other ≠ key) :
    find (subscript m key dflt) other = find m other := by
  unfold subscript
  cases hf : find m key with
  | none => simpa using find_emplace_of_ne m key other dflt h
  | some v => rfl

theorem subscript_of_find_some [DecidableEq K] [LT K] [DecidableRel (LT.lt : K → K → Prop)]
    (m : StdMap K V) (key : K) (dflt v : V) (h : find m key = some v) :
    subscript m key dflt = m := by
  simp [subscript, h]

end StdMap

/-! ## Lemmas on the value cell -/

namespace TSynchedValue

theorem Set_eq (c : TSynchedValue) (T : ValueType) (value : T.carrier) :
    c.Set T value = TSynchedValue.empty.Set T value := by
  cases T <;> rfl

theorem GetPtr_Set (c : TSynchedValue) (T : ValueType) (value : T.carrier) :
    (c.Set T value).GetPtr T = some value := by
  cases T <;> rfl

theorem GetPtr_Set_of_ne (c : TSynchedValue) (T U : ValueType) (value : U.carrier)
    (h : T ≠ U) : (c.Set U value).GetPtr T = none := by
  cases T <;> cases U <;> first | rfl | exact absurd rfl h

theorem GetType_Set (c : TSynchedValue) (T : ValueType) (value : T.carrier) :
    (c.Set T value).GetType = T.IndexOf := by
  cases T <;> rfl

theorem GetType_of_GetPtr (c : TSynchedValue) (T : ValueType) (p : T.carrier)
    (h : c.GetPtr T = some p) : c.GetType = T.IndexOf := by
  cases T <;> cases c <;> first | rfl | simp [GetPtr] at h

theorem eq_Set_of_GetPtr (c : TSynchedValue) (T : ValueType) (p : T.carrier)
    (h : c.GetPtr T = some p) : c = TSynchedValue.empty.Set T p := by
  cases T <;> cases c <;> simp [GetPtr] at h <;> simp [Set, h]

end TSynchedValue

namespace ValueType

theorem ne_eq_false_iff (T : ValueType) (hT : T ≠ .float) (a b : T.carrier) :
    T.ne a b = false ↔ a = b := by
  cases T <;> first | exact absurd rfl hT | simp [ne]

theorem ne_self_of_not_float (T : ValueType) (hT : T ≠ .float) (a : T.carrier) :
    T.ne a a = false :=
  (ne_eq_false_iff T hT a a).2 rfl

end ValueType

/-! ## Lemmas on the global setters -/

namespace CSynchedStorage

/-- The cell under `key` after the typed global setter: the old cell when the
comparison found no change, a cell holding `value` otherwise. -/
theorem find_SetGlobalValue_self (self : CSynchedStorage) (T : ValueType) (key : TSynchedKey)
    (value : T.carrier) :
    StdMap.find (SetGlobalValue self T key value).1.m_globalStorage key =
      some (match StdMap.find self.m_globalStorage key with
        | none => TSynchedValue.empty.Set T value
        | some second =>
          if differs T second value then TSynchedValue.empty.Set T value else second) := by
  unfold SetGlobalValue
  cases h : StdMap.find self.m_globalStorage key with
  | none =>
    simp [StdMap.find_modify_self, StdMap.find_subscript_self, h]
  | some second =>
    by_cases hd : differs T second value = true
    · simp [hd, StdMap.find_modify_self, h, TSynchedValue.Set_eq second]
    · simp [hd, h]

/-- The typed global setter leaves the entries of the other keys alone. -/
theorem find_SetGlobalValue_of_ne (self : CSynchedStorage) (T : ValueType)
    (key other : TSynchedKey) (value : T.carrier) (h : other ≠ key) :
    StdMap.find (SetGlobalValue self T key value).1.m_globalStorage other =
      StdMap.find self.m_globalStorage other := by
  unfold SetGlobalValue
  cases hf : StdMap.find self.m_globalStorage key with
  | none =>
    simp [StdMap.find_modify_of_ne _ _ _ _ h, StdMap.find_subscript_of_ne _ _ _ _ h]
  | some second =>
    by_cases hd : differs T second value = true
    · simp [hd, StdMap.find_modify_of_ne _ _ _ _ h]
    · simp [hd]

/-- The hook calls of the typed global setter: none when the comparison found no
change, otherwise one, with the object after the write and a cell holding `value`. -/
theorem SetGlobalValue_calls (self : CSynchedStorage) (T : ValueType) (key : TSynchedKey)
    (value : T.carrier) :
    (SetGlobalValue self T key value).2 =
      (match StdMap.find self.m_globalStorage key with
        | none =>
          [HookCall.OnGlobalChanged (SetGlobalValue self T key value).1 key
            (TSynchedValue.empty.Set T value)]
        | some second =>
          if differs T second value then
            [HookCall.OnGlobalChanged (SetGlobalValue self T key value).1 key
              (TSynchedValue.empty.Set T value)]
          else []) := by
  unfold SetGlobalValue
  cases h : StdMap.find self.m_globalStorage key with
  | none => simp
  | some second =>
    by_cases hd : differs T second value = true
    · simp [hd, TSynchedValue.Set_eq second]
    · simp [hd]

/-- The cell under `key` after the untyped global setter is the cell passed. -/
theorem find_SetGlobalValue_TSynchedValue_self (self : CSynchedStorage) (key : TSynchedKey)
    (value : TSynchedValue) :
    StdMap.find (SetGlobalValue_TSynchedValue self key value).1.m_globalStorage key =
      some value := by
  simp [SetGlobalValue_TSynchedValue, StdMap.find_modify_self, StdMap.find_subscript_self]

theorem differs_Set_of_ne (T U : ValueType) (c : TSynchedValue) (p : T.carrier)
    (value : U.carrier) (hc : c.GetPtr T = some p) (h : T ≠ U) : differs U c value = true := by
  have hcU : c.GetPtr U = none := by
    rw [TSynchedValue.eq_Set_of_GetPtr c T p hc]
    exact TSynchedValue.GetPtr_Set_of_ne _ U T p (fun e => h e.symm)
  simp [differs, hcU]

end CSynchedStorage

/-! ## C1: typed set/get round trip in the global scope -/

namespace CSynchedStorage

/-- C1, as stated, fails for `float`: with `-0.0f` stored under key 5, the typed
`SetGlobalValue(5, 0.0f)` finds `-0.0f != 0.0f` false and writes nothing, so the
typed `GetGlobalValue<float>(5)` returns `-0.0f`, a different value from the
`0.0f` that was set. (With a NaN the value read back is the one set, and the two
compare unequal under `!=`.) -/
theorem C1_roundtrip_fails_at_signed_zero :
    GetGlobalValue
        (SetGlobalValue { fresh with m_globalStorage := [(5, .float float32.negZero)] }
          .float 5 float32.posZero).1 .float 5 = some float32.negZero
      ∧ GetGlobalValue
        (SetGlobalValue { fresh with m_globalStorage := [(5, .float float32.negZero)] }
          .float 5 float32.posZero).1 .float 5 ≠ some float32.posZero
      ∧ ∃ r, GetGlobalValue (SetGlobalValue fresh .float 5 float32.quietNaN).1 .float 5 = some r
          ∧ float32.ne r float32.quietNaN = true := by
  refine ⟨by decide, by decide, float32.quietNaN, by decide, by decide⟩

/-- C1, amended: for every object, key and value of any of the five types `T`,
after the typed `SetGlobalValue(key, value)` the typed `GetGlobalValue<T>(key)`
succeeds and `GetGlobalValueType(key)` is the tag of `T`. The value read is
`value` itself, or, for `float` only, the payload the key held before, when that
payload compares equal to `value` under `!=` (a zero of the other sign). For the
four other types the value read is always `value`. -/
theorem C1_typed_set_get_global (self : CSynchedStorage) (T : ValueType) (key : TSynchedKey)
    (value : T.carrier) :
    GetGlobalValueType (SetGlobalValue self T key value).1 key = T.IndexOf
      ∧ (∃ r, GetGlobalValue (SetGlobalValue self T key value).1 T key = some r
          ∧ (r = value
            ∨ (T = .float ∧ GetGlobalValue self T key = some r ∧ T.ne r value = false)))
      ∧ (T ≠ .float → GetGlobalValue (SetGlobalValue self T key value).1 T key = some value) := by
  have hfind := find_SetGlobalValue_self self T key value
  have key1 : ∀ second, StdMap.find self.m_globalStorage key = some second →
      differs T second value = false →
      ∃ p, second.GetPtr T = some p ∧ T.ne p value = false := by
    intro second _ hd
    unfold differs at hd
    cases hp : second.GetPtr T with
    | none => simp [hp] at hd
    | some p => exact ⟨p, rfl, by simpa [hp] using hd⟩
  cases h : StdMap.find self.m_globalStorage key with
  | none =>
    rw [h] at hfind
    simp only at hfind
    refine ⟨?_, ⟨value, ?_, Or.inl rfl⟩, fun _ => ?_⟩
    · simp [GetGlobalValueType, hfind, TSynchedValue.GetType_Set]
    · simp [GetGlobalValue, hfind, TSynchedValue.GetPtr_Set]
    · simp [GetGlobalValue, hfind, TSynchedValue.GetPtr_Set]
  | some second =>
    rw [h] at hfind
    simp only at hfind
    by_cases hd : differs T second value = true
    · simp only [hd, if_true] at hfind
      refine ⟨?_, ⟨value, ?_, Or.inl rfl⟩, fun _ => ?_⟩
      · simp [GetGlobalValueType, hfind, TSynchedValue.GetType_Set]
      · simp [GetGlobalValue, hfind, TSynchedValue.GetPtr_Set]
      · simp [GetGlobalValue, hfind, TSynchedValue.GetPtr_Set]
    · have hd2 : differs T second value = false := by simpa using hd
      simp only [hd2] at hfind
      obtain ⟨p, hp, hne⟩ := key1 second h hd2
      have hget : GetGlobalValue (SetGlobalValue self T key value).1 T key = some p := by
        simp [GetGlobalValue, hfind, hp]
      have hold : GetGlobalValue self T key = some p := by
        simp [GetGlobalValue, h, hp]
      refine ⟨?_, ⟨p, hget, ?_⟩, fun hT => ?_⟩
      · simp [GetGlobalValueType, hfind, TSynchedValue.GetType_of_GetPtr second T p hp]
      · by_cases hT : T = .float
        · exact Or.inr ⟨hT, hold, hne⟩
        · exact Or.inl ((ValueType.ne_eq_false_iff T hT p value).1 hne)
      · rw [hget, (ValueType.ne_eq_false_iff T hT p value).1 hne]

/-- C1 at concrete inputs: `7 : int` set under key 5 of the sample object, which
holds `true` there, is read back as 7 with the tag of `int`. -/
theorem C1_typed_set_get_global_witness :
    GetGlobalValueType (SetGlobalValue sample .int 5 7).1 5 = eSVT_Int
      ∧ GetGlobalValue (SetGlobalValue sample .int 5 7).1 .int 5 = some 7 :=
  ⟨(C1_typed_set_get_global sample .int 5 7).1,
    (C1_typed_set_get_global sample .int 5 7).2.2 (by decide)⟩

end CSynchedStorage

/-! ## C2: a new key is always reported -/

namespace CSynchedStorage

theorem setTyped_of_absent (T : ValueType) (storage : TStorage) (key : TSynchedKey)
    (value : T.carrier) (h : StdMap.find storage key = none) :
    setTyped T storage key value =
      (StdMap.modify (StdMap.subscript storage key TSynchedValue.empty) key
          (fun c => c.Set T value),
        some (TSynchedValue.empty.Set T value)) := by
  simp [setTyped, h]

theorem GetChannelStorage_create (self : CSynchedStorage) (channelId : Int) :
    ∃ self1 storage, GetChannelStorage self channelId true
        = (self1, some (.channelStorageMap channelId))
      ∧ self1.deref (.channelStorageMap channelId) = some storage
      ∧ (∀ old, StdMap.find self.m_channelStorageMap channelId = some old → storage = old)
      ∧ (StdMap.find self.m_channelStorageMap channelId = none → storage = []) := by
  unfold GetChannelStorage
  cases h : StdMap.find self.m_channelStorageMap channelId with
  | none =>
    refine ⟨_, [], rfl, ?_, by simp, by simp⟩
    simpa [deref] using StdMap.find_emplace_self self.m_channelStorageMap channelId [] h
  | some old =>
    exact ⟨self, old, rfl, by simpa [deref] using h, by simp, by simp⟩

theorem GetEntityStorage_create (self : CSynchedStorage) (id : EntityId) :
    ∃ self1 storage, GetEntityStorage self id true = (self1, some (.entityStorage id))
      ∧ self1.deref (.entityStorage id) = some storage
      ∧ (∀ old, StdMap.find self.m_entityStorage id = some old → storage = old)
      ∧ (StdMap.find self.m_entityStorage id = none → storage = []) := by
  unfold GetEntityStorage
  cases h : StdMap.find self.m_entityStorage id with
  | none =>
    refine ⟨_, [], rfl, ?_, by simp, by simp⟩
    simpa [deref] using StdMap.find_emplace_self self.m_entityStorage id [] h
  | some old =>
    exact ⟨self, old, rfl, by simpa [deref] using h, by simp, by simp⟩

theorem SetChannelValue_of_absent (getChannelStorage : Locator Int) (self : CSynchedStorage)
    (T : ValueType) (channelId : Int) (key : TSynchedKey) (value : T.carrier)
    (self1 : CSynchedStorage) (pStorage : TStoragePtr) (storage : TStorage)
    (hloc : getChannelStorage self channelId true = (self1, some pStorage))
    (hder : self1.deref pStorage = some storage) (habs : StdMap.find storage key = none) :
    ∃ self2, SetChannelValue getChannelStorage self T channelId key value
      = .ok (self2, [HookCall.OnChannelChanged self2 channelId key
          (TSynchedValue.empty.Set T value)]) := by
  refine ⟨self1.write pStorage (fun _ =>
    StdMap.modify (StdMap.subscript storage key TSynchedValue.empty) key
      (fun c => c.Set T value)), ?_⟩
  simp only [SetChannelValue, hloc, hder, setTyped_of_absent T storage key value habs]

theorem SetEntityValue_of_absent (getEntityStorage : Locator EntityId) (self : CSynchedStorage)
    (T : ValueType) (id : EntityId) (key : TSynchedKey) (value : T.carrier)
    (self1 : CSynchedStorage) (pStorage : TStoragePtr) (storage : TStorage)
    (hloc : getEntityStorage self id true = (self1, some pStorage))
    (hder : self1.deref pStorage = some storage) (habs : StdMap.find storage key = none) :
    ∃ self2, SetEntityValue getEntityStorage self T id key value
      = .ok (self2, [HookCall.OnEntityChanged self2 id key
          (TSynchedValue.empty.Set T value)]) := by
  refine ⟨self1.write pStorage (fun _ =>
    StdMap.modify (StdMap.subscript storage key TSynchedValue.empty) key
      (fun c => c.Set T value)), ?_⟩
  simp only [SetEntityValue, hloc, hder, setTyped_of_absent T storage key value habs]

/-- C2: a typed setter on a key that its scope's map does not hold calls that
scope's hook exactly once, with that key (and the channel or entity id) and a
cell holding the new value. Global scope: the key is absent from
`m_globalStorage`. Channel and entity scope: the map is the one the virtual
locator (`GetChannelStorage`, `GetEntityStorage`, called with `create = true`)
yields, whatever locator is installed; with the lazily creating locators this is
the map of the id, or a new empty one when the id has none. -/
theorem C2_create_always_notifies (T : ValueType) (key : TSynchedKey) (value : T.carrier)
    (self : CSynchedStorage) :
    (StdMap.find self.m_globalStorage key = none →
        ∃ self2, SetGlobalValue self T key value
          = (self2, [HookCall.OnGlobalChanged self2 key (TSynchedValue.empty.Set T value)]))
      ∧ (∀ (getChannelStorage : Locator Int) (channelId : Int) (self1 : CSynchedStorage)
          (pStorage : TStoragePtr) (storage : TStorage),
          getChannelStorage self channelId true = (self1, some pStorage) →
          self1.deref pStorage = some storage → StdMap.find storage key = none →
          ∃ self2, SetChannelValue getChannelStorage self T channelId key value
            = .ok (self2, [HookCall.OnChannelChanged self2 channelId key
                (TSynchedValue.empty.Set T value)]))
      ∧ (∀ (getEntityStorage : Locator EntityId) (id : EntityId) (self1 : CSynchedStorage)
          (pStorage : TStoragePtr) (storage : TStorage),
          getEntityStorage self id true = (self1, some pStorage) →
          self1.deref pStorage = some storage → StdMap.find storage key = none →
          ∃ self2, SetEntityValue getEntityStorage self T id key value
            = .ok (self2, [HookCall.OnEntityChanged self2 id key
                (TSynchedValue.empty.Set T value)]))
      ∧ (∀ channelId : Int,
          (∀ storage, StdMap.find self.m_channelStorageMap channelId = some storage →
            StdMap.find storage key = none) →
          ∃ self2, SetChannelValue GetChannelStorage self T channelId key value
            = .ok (self2, [HookCall.OnChannelChanged self2 channelId key
                (TSynchedValue.empty.Set T value)]))
      ∧ (∀ id : EntityId,
          (∀ storage, StdMap.find self.m_entityStorage id = some storage →
            StdMap.find storage key = none) →
          ∃ self2, SetEntityValue GetEntityStorage self T id key value
            = .ok (self2, [HookCall.OnEntityChanged self2 id key
                (TSynchedValue.empty.Set T value)])) := by
  refine ⟨?_, ?_, ?_, ?_, ?_⟩
  · intro h
    have hc := SetGlobalValue_calls self T key value
    rw [h] at hc
    exact ⟨(SetGlobalValue self T key value).1, Prod.ext rfl hc⟩
  · intro loc channelId self1 pStorage storage hloc hder habs
    exact SetChannelValue_of_absent loc self T channelId key value self1 pStorage storage
      hloc hder habs
  · intro loc id self1 pStorage storage hloc hder habs
    exact SetEntityValue_of_absent loc self T id key value self1 pStorage storage
      hloc hder habs
  · intro channelId habs
    obtain ⟨self1, storage, hloc, hder, hold, hnew⟩ := GetChannelStorage_create self channelId
    refine SetChannelValue_of_absent GetChannelStorage self T channelId key value self1 _
      storage hloc hder ?_
    cases h : StdMap.find self.m_channelStorageMap channelId with
    | none => rw [hnew h]; rfl
    | some old => rw [hold old h]; exact habs old h
  · intro id habs
    obtain ⟨self1, storage, hloc, hder, hold, hnew⟩ := GetEntityStorage_create self id
    refine SetEntityValue_of_absent GetEntityStorage self T id key value self1 _
      storage hloc hder ?_
    cases h : StdMap.find self.m_entityStorage id with
    | none => rw [hnew h]; rfl
    | some old => rw [hold old h]; exact habs old h

/-- C2 at concrete inputs: on the object holding only `7 : int` under key 1 of
entity 99, key 5 is new in the global map, in the map of channel 4 and in the map
of entity 99. -/
theorem C2_create_always_notifies_witness :
    (∃ self2, SetGlobalValue { fresh with m_entityStorage := [(99, [(1, .int 7)])] } .bool 5 true
        = (self2, [HookCall.OnGlobalChanged self2 5 (.bool true)]))
      ∧ (∃ self2, SetChannelValue GetChannelStorage
          { fresh with m_entityStorage := [(99, [(1, .int 7)])] } .bool 4 5 true
        = .ok (self2, [HookCall.OnChannelChanged self2 4 5 (.bool true)]))
      ∧ (∃ self2, SetEntityValue GetEntityStorage
          { fresh with m_entityStorage := [(99, [(1, .int 7)])] } .bool 99 5 true
        = .ok (self2, [HookCall.OnEntityChanged self2 99 5 (.bool true)])) :=
  have h := C2_create_always_notifies .bool 5 true
    { fresh with m_entityStorage := [(99, [(1, .int 7)])] }
  ⟨h.1 (by decide), h.2.2.2.1 4 (by intro storage hs; simp [fresh, StdMap.find] at hs),
    h.2.2.2.2 99 (by
      intro storage hs
      simp [StdMap.find] at hs
      subst hs
      decide)⟩

end CSynchedStorage

/-! ## C3: a typed write of the value already held is suppressed -/

namespace float32

theorem ne_self (a : float32) : ne a a = a.isNaN := by
  simp [ne]

end float32

namespace CSynchedStorage

theorem SetGlobalValue_of_not_differs (self : CSynchedStorage) (T : ValueType)
    (key : TSynchedKey) (value : T.carrier) (second : TSynchedValue)
    (h : StdMap.find self.m_globalStorage key = some second)
    (hd : differs T second value = false) :
    SetGlobalValue self T key value = (self, []) := by
  simp [SetGlobalValue, h, hd]

theorem SetGlobalValue_of_differs (self : CSynchedStorage) (T : ValueType)
    (key : TSynchedKey) (value : T.carrier) (second : TSynchedValue)
    (h : StdMap.find self.m_globalStorage key = some second)
    (hd : differs T second value = true) :
    (SetGlobalValue self T key value).2 =
      [HookCall.OnGlobalChanged (SetGlobalValue self T key value).1 key
        (TSynchedValue.empty.Set T value)] := by
  rw [SetGlobalValue_calls, h]
  simp [hd]

theorem differs_of_GetPtr (T : ValueType) (c : TSynchedValue) (p value : T.carrier)
    (h : c.GetPtr T = some p) : differs T c value = T.ne p value := by
  simp [differs, h]

/-- C3, as stated, fails for a `float` NaN: `NaN != NaN` is true, so the second
of two typed `SetGlobalValue(5, NaN)` calls on the fresh object calls the hook
again (two calls in total), and a typed set of the very payload the key holds is
reported when that payload is a NaN. -/
theorem C3_nan_is_never_suppressed :
    ((SetGlobalValue fresh .float 5 float32.quietNaN).2
        ++ (SetGlobalValue (SetGlobalValue fresh .float 5 float32.quietNaN).1
              .float 5 float32.quietNaN).2).length = 2
      ∧ TSynchedValue.GetPtr .float (.float float32.quietNaN) = some float32.quietNaN
      ∧ (SetGlobalValue { fresh with m_globalStorage := [(5, .float float32.quietNaN)] }
          .float 5 float32.quietNaN).2.length = 1 := by
  refine ⟨by decide, by decide, by decide⟩

/-- C3, amended: for every value that is not a `float` NaN (every `value` with
`value != value` false under its type's operator, which holds for all values of
the four other types). On an object where `key` is absent, two typed
`SetGlobalValue(key, value)` calls in a row call the global hook exactly once in
total, the second call making none and changing nothing; and on any object where
`key` holds a cell of type `T` with payload `value`, the typed setter calls no
hook and returns the object unchanged. -/
theorem C3_idempotent_write_suppressed (T : ValueType) (key : TSynchedKey) (value : T.carrier)
    (self : CSynchedStorage) (hv : T = .float → T.ne value value = false) :
    (StdMap.find self.m_globalStorage key = none →
        (SetGlobalValue self T key value).2
            ++ (SetGlobalValue (SetGlobalValue self T key value).1 T key value).2
          = [HookCall.OnGlobalChanged (SetGlobalValue self T key value).1 key
              (TSynchedValue.empty.Set T value)]
        ∧ SetGlobalValue (SetGlobalValue self T key value).1 T key value
          = ((SetGlobalValue self T key value).1, []))
      ∧ (∀ second, StdMap.find self.m_globalStorage key = some second →
          second.GetPtr T = some value → SetGlobalValue self T key value = (self, [])) := by
  have hself : T.ne value value = false := by
    by_cases hT : T = .float
    · exact hv hT
    · exact ValueType.ne_self_of_not_float T hT value
  have hsame : ∀ (d : CSynchedStorage) (second : TSynchedValue),
      StdMap.find d.m_globalStorage key = some second →
      second.GetPtr T = some value → SetGlobalValue d T key value = (d, []) := by
    intro d second hf hp
    refine SetGlobalValue_of_not_differs d T key value second hf ?_
    rw [differs_of_GetPtr T second value value hp]
    exact hself
  refine ⟨fun habs => ?_, hsame self⟩
  have hfind := find_SetGlobalValue_self self T key value
  rw [habs] at hfind
  simp only at hfind
  have h2 := hsame (SetGlobalValue self T key value).1 _ hfind
    (TSynchedValue.GetPtr_Set _ T value)
  have h1 := SetGlobalValue_calls self T key value
  rw [habs] at h1
  simp only at h1
  refine ⟨?_, h2⟩
  rw [h2, h1]
  rfl

/-- C3 at concrete inputs: `3.14f` set twice under the absent key 5, and set
again where key 5 already holds `3.14f`. -/
theorem C3_idempotent_write_suppressed_witness :
    ((SetGlobalValue fresh .float 5 float32.pi314).2
          ++ (SetGlobalValue (SetGlobalValue fresh .float 5 float32.pi314).1
                .float 5 float32.pi314).2
        = [HookCall.OnGlobalChanged (SetGlobalValue fresh .float 5 float32.pi314).1 5
            (.float float32.pi314)])
      ∧ SetGlobalValue { fresh with m_globalStorage := [(5, .float float32.pi314)] }
          .float 5 float32.pi314
        = ({ fresh with m_globalStorage := [(5, .float float32.pi314)] }, []) :=
  ⟨((C3_idempotent_write_suppressed .float 5 float32.pi314 fresh
      (fun _ => by decide)).1 (by decide)).1,
    (C3_idempotent_write_suppressed .float 5 float32.pi314
      { fresh with m_globalStorage := [(5, .float float32.pi314)] }
      (fun _ => by decide)).2 (.float float32.pi314) (by decide) (by decide)⟩

end CSynchedStorage

/-! ## C4: a change of kind is always reported -/

namespace TSynchedValue

theorem GetPtr_of_GetType_ne (c : TSynchedValue) (T U : ValueType)
    (hc : c.GetType = T.IndexOf) (h : T ≠ U) : c.GetPtr U = none := by
  cases T <;> cases U <;> cases c <;>
    first
    | rfl
    | exact absurd rfl h
    | (simp [GetType, ValueType.IndexOf, eSVT_None, eSVT_Bool, eSVT_Float, eSVT_Int,
        eSVT_EntityId, eSVT_String] at hc)

end TSynchedValue

namespace CSynchedStorage

/-- C4: where `key` holds a cell whose tag is that of `T`, the typed
`SetGlobalValue<U>(key, u)` with a different type `U` calls the global hook
exactly once, with `key` and a cell holding `u`, whatever the payloads; after it
`GetGlobalValueType(key)` is the tag of `U` and the typed `GetGlobalValue<T>(key)`
fails. -/
theorem C4_kind_change_notifies (T U : ValueType) (key : TSynchedKey) (u : U.carrier)
    (self : CSynchedStorage) (second : TSynchedValue) (hTU : T ≠ U)
    (hfind : StdMap.find self.m_globalStorage key = some second)
    (hkind : second.GetType = T.IndexOf) :
    (SetGlobalValue self U key u).2
        = [HookCall.OnGlobalChanged (SetGlobalValue self U key u).1 key
            (TSynchedValue.empty.Set U u)]
      ∧ GetGlobalValueType (SetGlobalValue self U key u).1 key = U.IndexOf
      ∧ GetGlobalValue (SetGlobalValue self U key u).1 T key = none := by
  have hd : differs U second u = true := by
    simp [differs, TSynchedValue.GetPtr_of_GetType_ne second T U hkind hTU]
  have hafter := find_SetGlobalValue_self self U key u
  rw [hfind] at hafter
  simp only [hd, if_true] at hafter
  refine ⟨SetGlobalValue_of_differs self U key u second hfind hd, ?_, ?_⟩
  · simp [GetGlobalValueType, hafter, TSynchedValue.GetType_Set]
  · simp [GetGlobalValue, hafter, TSynchedValue.GetPtr_Set_of_ne _ T U u hTU]

/-- C4 at the spec's example: `SetGlobalValue(5, true)` on the fresh object, then
`SetGlobalValue(5, 3.14f)`. The second call reports once more, the tag becomes
that of `float`, and the typed read as `bool` fails. -/
theorem C4_kind_change_notifies_witness :
    (SetGlobalValue (SetGlobalValue fresh .bool 5 true).1 .float 5 float32.pi314).2
        = [HookCall.OnGlobalChanged
            (SetGlobalValue (SetGlobalValue fresh .bool 5 true).1 .float 5 float32.pi314).1 5
            (.float float32.pi314)]
      ∧ GetGlobalValueType
          (SetGlobalValue (SetGlobalValue fresh .bool 5 true).1 .float 5 float32.pi314).1 5
        = eSVT_Float
      ∧ GetGlobalValue
          (SetGlobalValue (SetGlobalValue fresh .bool 5 true).1 .float 5 float32.pi314).1
          .bool 5 = none :=
  C4_kind_change_notifies .bool .float 5 float32.pi314 (SetGlobalValue fresh .bool 5 true).1
    (.bool true) (by decide) (by decide) (by decide)

end CSynchedStorage

/-! ## C5: the untyped setter always reports -/

namespace CSynchedStorage

/-- After a typed global set of a value that equals itself under `!=`, the cell
under the key no longer differs from that value. -/
theorem not_differs_after_SetGlobalValue (self : CSynchedStorage) (T : ValueType)
    (key : TSynchedKey) (value : T.carrier) (hself : T.ne value value = false) :
    ∃ cell, StdMap.find (SetGlobalValue self T key value).1.m_globalStorage key = some cell
      ∧ differs T cell value = false := by
  have hfind := find_SetGlobalValue_self self T key value
  refine ⟨_, hfind, ?_⟩
  have hnew : differs T (TSynchedValue.empty.Set T value) value = false := by
    rw [differs_of_GetPtr T _ value value (TSynchedValue.GetPtr_Set _ T value)]
    exact hself
  cases h : StdMap.find self.m_globalStorage key with
  | none => simp [hnew]
  | some second =>
    by_cases hd : differs T second value = true
    · simpa [hd] using hnew
    · simp [hd]

/-- C5, as stated, fails in its last clause, on the typed overload: called twice
with a `float` NaN on the fresh object it calls the hook twice, not once, and
called twice with `true` where key 5 already holds `true` it calls no hook. -/
theorem C5_typed_overload_not_always_once :
    ((SetGlobalValue fresh .float 5 float32.quietNaN).2
        ++ (SetGlobalValue (SetGlobalValue fresh .float 5 float32.quietNaN).1
              .float 5 float32.quietNaN).2).length = 2
      ∧ ((SetGlobalValue { fresh with m_globalStorage := [(5, .bool true)] } .bool 5 true).2
        ++ (SetGlobalValue
              (SetGlobalValue { fresh with m_globalStorage := [(5, .bool true)] }
                .bool 5 true).1 .bool 5 true).2).length = 0 := by
  refine ⟨by decide, by decide⟩

/-- C5, amended in its last clause only: for every object, key and cell, the
untyped `SetGlobalValue(key, cell)` stores the cell under `key` and calls the
global hook exactly once with `key` and that cell, also when `key` already holds
an identical cell; two untyped sets of the same cell in a row call the hook
twice. The typed overload, called twice in a row with a value that is not a
`float` NaN, makes no call the second time; it makes exactly one call in total
when `key` was absent or held a cell that differs from the value (other tag, or
payload unequal under `!=`), and no call at all otherwise, that is when `key`
held a cell that does not differ from the value. -/
theorem C5_untyped_setter_always_notifies (self : CSynchedStorage) (key : TSynchedKey)
    (cell : TSynchedValue) :
    StdMap.find (SetGlobalValue_TSynchedValue self key cell).1.m_globalStorage key = some cell
      ∧ (SetGlobalValue_TSynchedValue self key cell).2
        = [HookCall.OnGlobalChanged (SetGlobalValue_TSynchedValue self key cell).1 key cell]
      ∧ (StdMap.find self.m_globalStorage key = some cell →
          (SetGlobalValue_TSynchedValue self key cell).2.length = 1)
      ∧ ((SetGlobalValue_TSynchedValue self key cell).2
          ++ (SetGlobalValue_TSynchedValue
                (SetGlobalValue_TSynchedValue self key cell).1 key cell).2
        = [HookCall.OnGlobalChanged (SetGlobalValue_TSynchedValue self key cell).1 key cell,
            HookCall.OnGlobalChanged
              (SetGlobalValue_TSynchedValue
                (SetGlobalValue_TSynchedValue self key cell).1 key cell).1 key cell])
      ∧ (∀ (T : ValueType) (value : T.carrier), (T = .float → T.ne value value = false) →
          (SetGlobalValue (SetGlobalValue self T key value).1 T key value).2 = []
          ∧ ((StdMap.find self.m_globalStorage key = none
                ∨ ∃ second, StdMap.find self.m_globalStorage key = some second
                    ∧ differs T second value = true) →
              (SetGlobalValue self T key value).2
                ++ (SetGlobalValue (SetGlobalValue self T key value).1 T key value).2
              = [HookCall.OnGlobalChanged (SetGlobalValue self T key value).1 key
                  (TSynchedValue.empty.Set T value)])
          ∧ (∀ second, StdMap.find self.m_globalStorage key = some second →
              differs T second value = false →
              (SetGlobalValue self T key value).2
                ++ (SetGlobalValue (SetGlobalValue self T key value).1 T key value).2
              = [])) := by
  refine ⟨find_SetGlobalValue_TSynchedValue_self self key cell, rfl, fun _ => rfl, rfl, ?_⟩
  intro T value hv
  have hself : T.ne value value = false := by
    by_cases hT : T = .float
    · exact hv hT
    · exact ValueType.ne_self_of_not_float T hT value
  obtain ⟨c, hc, hd⟩ := not_differs_after_SetGlobalValue self T key value hself
  have h2 := SetGlobalValue_of_not_differs _ T key value c hc hd
  refine ⟨by rw [h2], fun hstart => ?_, fun second hsec hd2 => ?_⟩
  · rw [h2]
    simp only [List.append_nil]
    rcases hstart with habs | ⟨second, hsec, hd2⟩
    · have h1 := SetGlobalValue_calls self T key value
      rw [habs] at h1
      exact h1
    · exact SetGlobalValue_of_differs self T key value second hsec hd2
  · rw [h2, SetGlobalValue_of_not_differs self T key value second hsec hd2]
    rfl

/-- C5 at concrete inputs, where key 5 holds the cell with `true`: that cell set
once more, untyped, makes a hook call; `3.14f` set twice, typed, makes one call
in total; `true` set twice, typed, makes none. -/
theorem C5_untyped_setter_always_notifies_witness :
    (SetGlobalValue_TSynchedValue { fresh with m_globalStorage := [(5, .bool true)] }
        5 (.bool true)).2.length = 1
      ∧ ((SetGlobalValue { fresh with m_globalStorage := [(5, .bool true)] }
            .float 5 float32.pi314).2
          ++ (SetGlobalValue
                (SetGlobalValue { fresh with m_globalStorage := [(5, .bool true)] }
                  .float 5 float32.pi314).1 .float 5 float32.pi314).2
        = [HookCall.OnGlobalChanged
            (SetGlobalValue { fresh with m_globalStorage := [(5, .bool true)] }
              .float 5 float32.pi314).1 5 (.float float32.pi314)])
      ∧ ((SetGlobalValue { fresh with m_globalStorage := [(5, .bool true)] } .bool 5 true).2
          ++ (SetGlobalValue
                (SetGlobalValue { fresh with m_globalStorage := [(5, .bool true)] }
                  .bool 5 true).1 .bool 5 true).2
        = []) :=
  have h := C5_untyped_setter_always_notifies
    { fresh with m_globalStorage := [(5, .bool true)] } 5 (.bool true)
  ⟨h.2.2.1 (by decide),
    (h.2.2.2.2 .float float32.pi314 (fun _ => by decide)).2.1
      (Or.inr ⟨.bool true, by decide, by decide⟩),
    (h.2.2.2.2 .bool true (fun hT => by cases hT)).2.2 (.bool true) (by decide) (by decide)⟩

end CSynchedStorage

/-! ## C6: when a typed getter fails -/

namespace TSynchedValue

theorem GetPtr_of_GetType_eq (c : TSynchedValue) (T : ValueType)
    (hc : c.GetType = T.IndexOf) : ∃ p, c.GetPtr T = some p ∧ c = TSynchedValue.empty.Set T p := by
  cases T <;> cases c <;>
    first
    | exact ⟨_, rfl, rfl⟩
    | (simp [GetType, ValueType.IndexOf, eSVT_None, eSVT_Bool, eSVT_Float, eSVT_Int,
        eSVT_EntityId, eSVT_String] at hc)

theorem GetPtr_of_GetType_ne_IndexOf (c : TSynchedValue) (T : ValueType)
    (hc : c.GetType ≠ T.IndexOf) : c.GetPtr T = none := by
  cases h : c.GetPtr T with
  | none => rfl
  | some p => exact absurd (GetType_of_GetPtr c T p h) hc

end TSynchedValue

namespace CSynchedStorage

/-- C6: the typed `GetEntityValue<T>(id, key)` fails when the entity has no map,
when its map has no entry for `key`, and when the cell stored there has a tag
other than that of `T`; the three failures give the same result. In the
remaining case, a stored cell holding a payload `p` with the tag of `T`, it
returns `p`. The typed `GetGlobalValue<T>(key)` does the same on the global map,
without the first case. -/
theorem C6_typed_getter_absence (self : CSynchedStorage) (T : ValueType) (id : EntityId)
    (key : TSynchedKey) :
    (StdMap.find self.m_entityStorage id = none → GetEntityValue self T id key = none)
      ∧ (∀ storage, StdMap.find self.m_entityStorage id = some storage →
          (StdMap.find storage key = none → GetEntityValue self T id key = none)
          ∧ (∀ cell, StdMap.find storage key = some cell →
              (cell.GetType ≠ T.IndexOf → GetEntityValue self T id key = none)
              ∧ (cell.GetType = T.IndexOf →
                  ∃ p, cell = TSynchedValue.empty.Set T p
                    ∧ GetEntityValue self T id key = some p)))
      ∧ (StdMap.find self.m_globalStorage key = none → GetGlobalValue self T key = none)
      ∧ (∀ cell, StdMap.find self.m_globalStorage key = some cell →
          (cell.GetType ≠ T.IndexOf → GetGlobalValue self T key = none)
          ∧ (cell.GetType = T.IndexOf →
              ∃ p, cell = TSynchedValue.empty.Set T p ∧ GetGlobalValue self T key = some p)) := by
  refine ⟨fun h => ?_, fun storage hs => ⟨fun h => ?_, fun cell hc => ⟨fun ht => ?_, fun ht => ?_⟩⟩,
    fun h => ?_, fun cell hc => ⟨fun ht => ?_, fun ht => ?_⟩⟩
  · simp [GetEntityValue, h]
  · simp [GetEntityValue, hs, h]
  · simp [GetEntityValue, hs, hc, TSynchedValue.GetPtr_of_GetType_ne_IndexOf cell T ht]
  · obtain ⟨p, hp, hcell⟩ := TSynchedValue.GetPtr_of_GetType_eq cell T ht
    exact ⟨p, hcell, by simp [GetEntityValue, hs, hc, hp]⟩
  · simp [GetGlobalValue, h]
  · simp [GetGlobalValue, hc, TSynchedValue.GetPtr_of_GetType_ne_IndexOf cell T ht]
  · obtain ⟨p, hp, hcell⟩ := TSynchedValue.GetPtr_of_GetType_eq cell T ht
    exact ⟨p, hcell, by simp [GetGlobalValue, hc, hp]⟩

/-- C6 at concrete inputs, on the sample object (entity 99 holds `7 : int` under
key 1, the global map holds `true` under key 5): entity 98 has no map, key 2 of
entity 99 has no entry, key 1 read as `bool` has the wrong tag, key 1 read as
`int` gives 7; global key 5 read as `float` fails. -/
theorem C6_typed_getter_absence_witness :
    GetEntityValue sample .int 98 1 = none
      ∧ GetEntityValue sample .int 99 2 = none
      ∧ GetEntityValue sample .bool 99 1 = none
      ∧ (∃ p, TSynchedValue.int 7 = TSynchedValue.empty.Set .int p
          ∧ GetEntityValue sample .int 99 1 = some p)
      ∧ GetGlobalValue sample .float 5 = none :=
  ⟨(C6_typed_getter_absence sample .int 98 1).1 (by decide),
    ((C6_typed_getter_absence sample .int 99 2).2.1 [(1, .int 7)] (by decide)).1 (by decide),
    (((C6_typed_getter_absence sample .bool 99 1).2.1 [(1, .int 7)] (by decide)).2 (.int 7)
      (by decide)).1 (by decide),
    (((C6_typed_getter_absence sample .int 99 1).2.1 [(1, .int 7)] (by decide)).2 (.int 7)
      (by decide)).2 (by decide),
    ((C6_typed_getter_absence sample .float 99 5).2.2.2 (.bool true)
      (by decide)).1 (by decide)⟩

end CSynchedStorage

/-! ## C7 and C8: the channel fallback -/

namespace CSynchedStorage

/-- C7: where `channelId` has no entry in `m_channelStorageMap` and the transport
has a channel of that id that reports itself local, both `GetChannelValue`
overloads with a channel id return what the corresponding lookup of `key` in
`m_channelStorage` returns: the cell found there, for the typed overload its
payload if the tag is that of `T`. -/
theorem C7_channel_fallback (self : CSynchedStorage) (T : ValueType) (channelId : Int)
    (key : TSynchedKey) (pGameFramework : IGameFramework) (pNetChannel : INetChannel)
    (hmap : StdMap.find self.m_channelStorageMap channelId = none)
    (hfw : self.m_pGameFramework = some pGameFramework)
    (hch : pGameFramework.GetNetChannel channelId = some pNetChannel)
    (hlocal : pNetChannel.IsLocal = true) :
    GetChannelValue self T channelId key = .ok (GetChannelValue_local self T key)
      ∧ GetChannelValue_TSynchedValue self channelId key
        = .ok (GetChannelValue_local_TSynchedValue self key)
      ∧ GetChannelValue_TSynchedValue self channelId key
        = .ok (StdMap.find self.m_channelStorage key)
      ∧ GetChannelValue self T channelId key
        = .ok ((StdMap.find self.m_channelStorage key).bind (TSynchedValue.GetPtr T)) := by
  have hl : netChannelIsLocal self channelId = .ok true := by
    simp [netChannelIsLocal, hfw, hch, hlocal]
  refine ⟨?_, ?_, ?_, ?_⟩
  · simp [GetChannelValue, hmap, hl]
  · simp [GetChannelValue_TSynchedValue, hmap, hl]
  · simp only [GetChannelValue_TSynchedValue, hmap, hl, GetChannelValue_local_TSynchedValue]
    cases StdMap.find self.m_channelStorage key <;> rfl
  · simp only [GetChannelValue, hmap, hl, GetChannelValue_local]
    cases StdMap.find self.m_channelStorage key with
    | none => rfl
    | some second => cases hp : second.GetPtr T <;> simp [hp]

/-- C7 at the spec's example: channel 4 has no map of its own and is the local
channel, `m_channelStorage` holds "ready" under key 2, and `GetChannelValue(4, 2)`
returns "ready", typed and untyped. -/
theorem C7_channel_fallback_witness :
    GetChannelValue sample .string 4 2 = .ok (some "ready")
      ∧ GetChannelValue_TSynchedValue sample 4 2 = .ok (some (.string "ready")) :=
  have h := C7_channel_fallback sample .string 4 2 sampleFramework { IsLocal := true }
    (by decide) rfl rfl rfl
  ⟨h.1, h.2.1⟩

/-- C8, as stated, fails when no framework is attached: on the fresh object
(`m_pGameFramework` null, no map for channel 4) both `GetChannelValue(4, 2)`
overloads call `GetNetChannel` through the null pointer; they do not return
"absent". -/
theorem C8_null_framework_is_dereferenced :
    GetChannelValue fresh .string 4 2 = .error Fault.nullDereference
      ∧ GetChannelValue_TSynchedValue fresh 4 2 = .error Fault.nullDereference
      ∧ GetChannelValue fresh .string 4 2 ≠ .ok none := by
  refine ⟨rfl, rfl, ?_⟩
  intro h
  cases h

/-- C8, amended to objects with a framework attached: where `channelId` has no
entry in `m_channelStorageMap` and the transport knows no channel of that id, or
knows one that reports itself not local, both `GetChannelValue` overloads with a
channel id return "absent", whatever `m_channelStorage` holds. -/
theorem C8_channel_fallback_negative (self : CSynchedStorage) (T : ValueType)
    (channelId : Int) (key : TSynchedKey) (pGameFramework : IGameFramework)
    (hmap : StdMap.find self.m_channelStorageMap channelId = none)
    (hfw : self.m_pGameFramework = some pGameFramework)
    (hch : pGameFramework.GetNetChannel channelId = none
      ∨ ∃ pNetChannel, pGameFramework.GetNetChannel channelId = some pNetChannel
          ∧ pNetChannel.IsLocal = false) :
    GetChannelValue self T channelId key = .ok none
      ∧ GetChannelValue_TSynchedValue self channelId key = .ok none := by
  have hl : netChannelIsLocal self channelId = .ok false := by
    rcases hch with hnone | ⟨pNetChannel, hsome, hnot⟩
    · simp [netChannelIsLocal, hfw, hnone]
    · simp [netChannelIsLocal, hfw, hsome, hnot]
  exact ⟨by simp [GetChannelValue, hmap, hl], by simp [GetChannelValue_TSynchedValue, hmap, hl]⟩

/-- C8 at concrete inputs, on the sample object, whose `m_channelStorage` holds
"ready" under key 2: channel 3 is known and not local, channel 9 is unknown. -/
theorem C8_channel_fallback_negative_witness :
    (GetChannelValue sample .string 3 2 = .ok none
        ∧ GetChannelValue_TSynchedValue sample 3 2 = .ok none)
      ∧ (GetChannelValue sample .string 9 2 = .ok none
        ∧ GetChannelValue_TSynchedValue sample 9 2 = .ok none) :=
  ⟨C8_channel_fallback_negative sample .string 3 2 sampleFramework (by decide) rfl
      (Or.inr ⟨{ IsLocal := false }, rfl, rfl⟩),
    C8_channel_fallback_negative sample .string 9 2 sampleFramework (by decide) rfl
      (Or.inl rfl)⟩

end CSynchedStorage

/-! ## C9: the hook sees the store already updated -/

namespace CSynchedStorage

/-- C9: every hook call made by a global setter, typed or untyped, is an
`OnGlobalChanged(key, cell)` entered with the object in the state the setter
returns, and in that state the untyped `GetGlobalValue(key)` succeeds with that
same cell. -/
theorem C9_notifier_sees_updated_store (self : CSynchedStorage) (key : TSynchedKey) :
    (∀ (T : ValueType) (value : T.carrier) (call : HookCall),
        call ∈ (SetGlobalValue self T key value).2 →
        ∃ cell, call = HookCall.OnGlobalChanged (SetGlobalValue self T key value).1 key cell
          ∧ GetGlobalValue_TSynchedValue (SetGlobalValue self T key value).1 key = some cell)
      ∧ (∀ (value : TSynchedValue) (call : HookCall),
          call ∈ (SetGlobalValue_TSynchedValue self key value).2 →
          call = HookCall.OnGlobalChanged (SetGlobalValue_TSynchedValue self key value).1
              key value
            ∧ GetGlobalValue_TSynchedValue (SetGlobalValue_TSynchedValue self key value).1 key
              = some value) := by
  have hget : ∀ (d : CSynchedStorage) (cell : TSynchedValue),
      StdMap.find d.m_globalStorage key = some cell →
      GetGlobalValue_TSynchedValue d key = some cell := by
    intro d cell h
    simp [GetGlobalValue_TSynchedValue, h]
  refine ⟨fun T value call hmem => ?_, fun value call hmem => ?_⟩
  · have hfind := find_SetGlobalValue_self self T key value
    rw [SetGlobalValue_calls] at hmem
    cases h : StdMap.find self.m_globalStorage key with
    | none =>
      rw [h] at hmem hfind
      simp only [List.mem_singleton] at hmem
      exact ⟨_, hmem, hget _ _ hfind⟩
    | some second =>
      rw [h] at hmem hfind
      by_cases hd : differs T second value = true
      · simp only [hd, if_true, List.mem_singleton] at hmem hfind
        exact ⟨_, hmem, hget _ _ hfind⟩
      · simp [hd] at hmem
  · have hcall : (SetGlobalValue_TSynchedValue self key value).2
        = [HookCall.OnGlobalChanged (SetGlobalValue_TSynchedValue self key value).1 key value] :=
      rfl
    rw [hcall, List.mem_singleton] at hmem
    exact ⟨hmem, hget _ _ (find_SetGlobalValue_TSynchedValue_self self key value)⟩

/-- C9 at concrete inputs: the typed `SetGlobalValue(5, 3.14f)` and the untyped
`SetGlobalValue(5, cell holding 3)` on the sample object, whose key 5 holds
`true`; each makes a hook call, and that call finds the new cell in the store. -/
theorem C9_notifier_sees_updated_store_witness :
    (∃ cell, HookCall.OnGlobalChanged (SetGlobalValue sample .float 5 float32.pi314).1 5
          (.float float32.pi314)
        = HookCall.OnGlobalChanged (SetGlobalValue sample .float 5 float32.pi314).1 5 cell
        ∧ GetGlobalValue_TSynchedValue (SetGlobalValue sample .float 5 float32.pi314).1 5
          = some cell)
      ∧ GetGlobalValue_TSynchedValue (SetGlobalValue_TSynchedValue sample 5 (.int 3)).1 5
        = some (.int 3) :=
  ⟨(C9_notifier_sees_updated_store sample 5).1 .float float32.pi314
      (HookCall.OnGlobalChanged (SetGlobalValue sample .float 5 float32.pi314).1 5
        (.float float32.pi314)) (List.mem_singleton.2 rfl),
    ((C9_notifier_sees_updated_store sample 5).2 (.int 3)
      (HookCall.OnGlobalChanged (SetGlobalValue_TSynchedValue sample 5 (.int 3)).1 5 (.int 3))
      (List.mem_singleton.2 rfl)).2⟩

end CSynchedStorage

/-! ## C10: one hook call per effective change, in call order -/

namespace CSynchedStorage

end CSynchedStorage

/-! ## C11 and C12: reads never create, writes create lazily -/

namespace CSynchedStorage

/-- C11: where entity `id` has no entry in `m_entityStorage`, the typed and the
untyped `GetEntityValue(id, key)` fail and `GetEntityValueType(id, key)` is
`eSVT_None`, for every key. The three are `const` member functions: they return
a result and no new object, so the object, and with it the missing entry of
`id`, is as before. -/
theorem C11_read_never_creates (self : CSynchedStorage) (T : ValueType) (id : EntityId)
    (key : TSynchedKey) (h : StdMap.find self.m_entityStorage id = none) :
    GetEntityValue self T id key = none
      ∧ GetEntityValue_TSynchedValue self id key = none
      ∧ GetEntityValueType self id key = eSVT_None
      ∧ StdMap.find self.m_entityStorage id = none := by
  refine ⟨?_, ?_, ?_, h⟩
  · simp [GetEntityValue, h]
  · simp [GetEntityValue_TSynchedValue, h]
  · simp [GetEntityValueType, h]

/-- C11 at the spec's example: entity 99 was never written on the fresh object. -/
theorem C11_read_never_creates_witness :
    GetEntityValue fresh .int 99 1 = none
      ∧ GetEntityValue_TSynchedValue fresh 99 1 = none
      ∧ GetEntityValueType fresh 99 1 = eSVT_None
      ∧ StdMap.find fresh.m_entityStorage 99 = none :=
  C11_read_never_creates fresh .int 99 1 (by decide)

/-- C12: on an object with no entries (the fresh object, whatever framework
pointer it was given), the typed `SetEntityValue(id, key, value)`, with the lazily
creating `GetEntityStorage`, succeeds; afterwards entity `id` has a map,
`GetEntityValueType(id, key)` is the tag of the value, and it is `eSVT_None` for
every other key of `id` and for every key of every other entity. -/
theorem C12_write_creates_lazily (pGameFramework : Option IGameFramework) (T : ValueType)
    (id : EntityId) (key : TSynchedKey) (value : T.carrier) :
    ∃ self2 calls,
      SetEntityValue GetEntityStorage { fresh with m_pGameFramework := pGameFramework }
          T id key value = .ok (self2, calls)
      ∧ (StdMap.find self2.m_entityStorage id).isSome = true
      ∧ GetEntityValueType self2 id key = T.IndexOf
      ∧ (∀ other, other ≠ key → GetEntityValueType self2 id other = eSVT_None)
      ∧ (∀ otherId other, otherId ≠ id → GetEntityValueType self2 otherId other = eSVT_None) := by
  refine ⟨
    { m_globalStorage := []
      m_channelStorage := []
      m_entityStorage := [(id, [(key, TSynchedValue.empty.Set T value)])]
      m_channelStorageMap := []
      m_pGameFramework := pGameFramework },
    [HookCall.OnEntityChanged
      { m_globalStorage := []
        m_channelStorage := []
        m_entityStorage := [(id, [(key, TSynchedValue.empty.Set T value)])]
        m_channelStorageMap := []
        m_pGameFramework := pGameFramework }
      id key (TSynchedValue.empty.Set T value)], ?_, ?_, ?_, ?_, ?_⟩
  · simp [SetEntityValue, GetEntityStorage, fresh, StdMap.find, StdMap.emplace, deref, setTyped,
      StdMap.subscript, StdMap.modify, write]
  · simp [StdMap.find]
  · simp [GetEntityValueType, StdMap.find, TSynchedValue.GetType_Set]
  · intro other h
    have h2 : ¬ key = other := fun e => h e.symm
    simp [GetEntityValueType, StdMap.find, h2]
  · intro otherId other h
    have h2 : ¬ id = otherId := fun e => h e.symm
    simp [GetEntityValueType, StdMap.find, h2]

/-- C12 at the spec's example: `SetEntityValue(99, 1, 7)` on the fresh object;
key 2 of entity 99 and key 1 of entity 98 have no value. -/
theorem C12_write_creates_lazily_witness :
    ∃ self2 calls, SetEntityValue GetEntityStorage fresh .int 99 1 7 = .ok (self2, calls)
      ∧ GetEntityValueType self2 99 1 = eSVT_Int
      ∧ GetEntityValueType self2 99 2 = eSVT_None
      ∧ GetEntityValueType self2 98 1 = eSVT_None :=
  let ⟨self2, calls, h, _, hk, hother, hid⟩ := C12_write_creates_lazily none .int 99 1 7
  ⟨self2, calls, h, hk, hother 2 (by decide), hid 98 1 (by decide)⟩

end CSynchedStorage

/-! ## C13: which tags are stored -/

namespace StdMap

variable {K V : Type}

theorem mem_of_find [DecidableEq K] (m : StdMap K V) (key : K) (v : V)
    (h : find m key = some v) : (key, v) ∈ m := by
  induction m with
  | nil => simp [find] at h
  | cons e rest ih =>
    obtain ⟨k, w⟩ := e
    by_cases hk : k = key
    · subst hk
      simp only [find, if_true, Option.some.injEq] at h
      subst h
      exact List.mem_cons_self _ _
    · simp only [find, hk, if_false] at h
      exact List.mem_cons_of_mem _ (ih h)

theorem forall_modify [DecidableEq K] (p : V → Prop) (m : StdMap K V) (key : K) (f : V → V)
    (hm : ∀ e ∈ m, p e.2) (hf : ∀ v, p v → p (f v)) : ∀ e ∈ modify m key f, p e.2 := by
  induction m with
  | nil => simp [modify]
  | cons e rest ih =>
    obtain ⟨k, w⟩ := e
    have hw : p w := hm (k, w) (List.mem_cons_self _ _)
    have hrest : ∀ e ∈ rest, p e.2 := fun e he => hm e (List.mem_cons_of_mem _ he)
    by_cases hk : k = key
    · simp only [modify, hk, if_true]
      intro e he
      rcases List.mem_cons.1 he with h1 | h1
      · rw [h1]; exact hf w hw
      · exact hrest e h1
    · simp only [modify, hk, if_false]
      intro e he
      rcases List.mem_cons.1 he with h1 | h1
      · rw [h1]; exact hw
      · exact ih hrest e h1

theorem forall_emplace [LT K] [DecidableRel (LT.lt : K → K → Prop)] (p : V → Prop)
    (m : StdMap K V) (key : K) (value : V) (hm : ∀ e ∈ m, p e.2) (hv : p value) :
    ∀ e ∈ emplace m key value, p e.2 := by
  induction m with
  | nil =>
    intro e he
    simp only [emplace, List.mem_singleton] at he
    rw [he]; exact hv
  | cons e0 rest ih =>
    obtain ⟨k, w⟩ := e0
    have hrest : ∀ e ∈ rest, p e.2 := fun e he => hm e (List.mem_cons_of_mem _ he)
    by_cases hlt : key < k
    · simp only [emplace, hlt, if_true]
      intro e he
      rcases List.mem_cons.1 he with h1 | h1
      · rw [h1]; exact hv
      · exact hm e h1
    · simp only [emplace, hlt, if_false]
      intro e he
      rcases List.mem_cons.1 he with h1 | h1
      · rw [h1]; exact hm (k, w) (List.mem_cons_self _ _)
      · exact ih hrest e h1

theorem forall_modify_emplace [DecidableEq K] [LT K] [DecidableRel (LT.lt : K → K → Prop)]
    (p : V → Prop) (m : StdMap K V) (key : K) (dflt : V) (f : V → V)
    (hm : ∀ e ∈ m, p e.2) (hnone : find m key = none) (hf : p (f dflt)) :
    ∀ e ∈ modify (emplace m key dflt) key f, p e.2 := by
  induction m with
  | nil =>
    intro e he
    simp only [emplace, modify, if_true, List.mem_singleton] at he
    rw [he]; exact hf
  | cons e0 rest ih =>
    obtain ⟨k, w⟩ := e0
    have hrest : ∀ e ∈ rest, p e.2 := fun e he => hm e (List.mem_cons_of_mem _ he)
    have hk : ¬ k = key := by
      intro hk
      simp [find, hk] at hnone
    simp only [find, hk, if_false] at hnone
    by_cases hlt : key < k
    · simp only [emplace, hlt, if_true, modify]
      intro e he
      rcases List.mem_cons.1 he with h1 | h1
      · rw [h1]; exact hf
      · exact hm e h1
    · simp only [emplace, hlt, if_false, modify, hk]
      intro e he
      rcases List.mem_cons.1 he with h1 | h1
      · rw [h1]; exact hm (k, w) (List.mem_cons_self _ _)
      · exact ih hrest hnone e h1

/-- After `m[key]` followed by a write of a good value through the reference,
all values are good if they were before. -/
theorem forall_modify_subscript [DecidableEq K] [LT K] [DecidableRel (LT.lt : K → K → Prop)]
    (p : V → Prop) (m : StdMap K V) (key : K) (dflt : V) (f : V → V)
    (hm : ∀ e ∈ m, p e.2) (hf : ∀ v, p (f v)) :
    ∀ e ∈ modify (subscript m key dflt) key f, p e.2 := by
  unfold subscript
  cases h : find m key with
  | none => exact forall_modify_emplace p m key dflt f hm h (hf dflt)
  | some v => exact forall_modify p m key f hm (fun v _ => hf v)

end StdMap

namespace CSynchedStorage

theorem storageNoneFree_iff (storage : TStorage) :
    storageNoneFree storage = true ↔ ∀ e ∈ storage, e.2.GetType ≠ eSVT_None := by
  simp [storageNoneFree, List.all_eq_true]

theorem GetType_Set_ne_None (c : TSynchedValue) (T : ValueType) (value : T.carrier) :
    (c.Set T value).GetType ≠ eSVT_None := by
  rw [TSynchedValue.GetType_Set]
  cases T <;> simp [ValueType.IndexOf, eSVT_None]

theorem storageNoneFree_setTyped (T : ValueType) (storage : TStorage) (key : TSynchedKey)
    (value : T.carrier) (h : storageNoneFree storage = true) :
    storageNoneFree (setTyped T storage key value).1 = true := by
  rw [storageNoneFree_iff] at h ⊢
  unfold setTyped
  cases hf : StdMap.find storage key with
  | none =>
    exact StdMap.forall_modify_subscript (fun c => c.GetType ≠ eSVT_None) storage key _ _ h
      (fun c => GetType_Set_ne_None c T value)
  | some second =>
    by_cases hd : differs T second value = true
    · simp only [hd, if_true]
      exact StdMap.forall_modify (fun c => c.GetType ≠ eSVT_None) storage key _ h
        (fun c _ => GetType_Set_ne_None c T value)
    · simp only [hd]
      exact h

theorem storageNoneFree_assign (storage : TStorage) (key : TSynchedKey) (value : TSynchedValue)
    (h : storageNoneFree storage = true) (hv : value.GetType ≠ eSVT_None) :
    storageNoneFree
      (StdMap.modify (StdMap.subscript storage key TSynchedValue.empty) key (fun _ => value))
      = true := by
  rw [storageNoneFree_iff] at h ⊢
  exact StdMap.forall_modify_subscript (fun c => c.GetType ≠ eSVT_None) storage key _ _ h
    (fun _ => hv)

theorem noneFree_iff (self : CSynchedStorage) :
    noneFree self = true ↔
      storageNoneFree self.m_globalStorage = true
        ∧ storageNoneFree self.m_channelStorage = true
        ∧ (∀ e ∈ self.m_entityStorage, storageNoneFree e.2 = true)
        ∧ (∀ e ∈ self.m_channelStorageMap, storageNoneFree e.2 = true) := by
  simp [noneFree, Bool.and_eq_true, List.all_eq_true, and_assoc]

theorem noneFree_write (self : CSynchedStorage) (pStorage : TStoragePtr)
    (f : TStorage → TStorage) (h : noneFree self = true)
    (hf : ∀ storage, storageNoneFree storage = true → storageNoneFree (f storage) = true) :
    noneFree (self.write pStorage f) = true := by
  rw [noneFree_iff] at h ⊢
  obtain ⟨hg, hc, he, hm⟩ := h
  cases pStorage with
  | channelStorage => exact ⟨hg, hf _ hc, he, hm⟩
  | channelStorageMap channelId =>
    exact ⟨hg, hc, he,
      StdMap.forall_modify (fun st => storageNoneFree st = true) _ channelId f hm hf⟩
  | entityStorage id =>
    exact ⟨hg, hc,
      StdMap.forall_modify (fun st => storageNoneFree st = true) _ id f he hf, hm⟩

theorem storageNoneFree_deref (self : CSynchedStorage) (pStorage : TStoragePtr)
    (storage : TStorage) (h : noneFree self = true) (hd : self.deref pStorage = some storage) :
    storageNoneFree storage = true := by
  rw [noneFree_iff] at h
  obtain ⟨_, hc, he, hm⟩ := h
  cases pStorage with
  | channelStorage =>
    simp only [deref, Option.some.injEq] at hd
    rw [← hd]; exact hc
  | channelStorageMap channelId => exact hm _ (StdMap.mem_of_find _ channelId storage hd)
  | entityStorage id => exact he _ (StdMap.mem_of_find _ id storage hd)

theorem noneFree_GetChannelStorage (self : CSynchedStorage) (channelId : Int) (create : Bool)
    (h : noneFree self = true) : noneFree (GetChannelStorage self channelId create).1 = true := by
  unfold GetChannelStorage
  cases hf : StdMap.find self.m_channelStorageMap channelId with
  | some _ => exact h
  | none =>
    cases create with
    | false => exact h
    | true =>
      rw [noneFree_iff] at h ⊢
      obtain ⟨hg, hc, he, hm⟩ := h
      exact ⟨hg, hc, he,
        StdMap.forall_emplace (fun st => storageNoneFree st = true) _ channelId [] hm rfl⟩

theorem noneFree_GetEntityStorage (self : CSynchedStorage) (id : EntityId) (create : Bool)
    (h : noneFree self = true) : noneFree (GetEntityStorage self id create).1 = true := by
  unfold GetEntityStorage
  cases hf : StdMap.find self.m_entityStorage id with
  | some _ => exact h
  | none =>
    cases create with
    | false => exact h
    | true =>
      rw [noneFree_iff] at h ⊢
      obtain ⟨hg, hc, he, hm⟩ := h
      exact ⟨hg, hc,
        StdMap.forall_emplace (fun st => storageNoneFree st = true) _ id [] he rfl, hm⟩

/-- The object after the typed global setter, by the common body of the typed
setters. -/
theorem SetGlobalValue_fst (self : CSynchedStorage) (T : ValueType) (key : TSynchedKey)
    (value : T.carrier) :
    (SetGlobalValue self T key value).1
      = { self with m_globalStorage := (setTyped T self.m_globalStorage key value).1 } := by
  unfold SetGlobalValue setTyped
  cases h : StdMap.find self.m_globalStorage key with
  | none => rfl
  | some second =>
    by_cases hd : differs T second value = true
    · simp [hd]
    · simp [hd]

end CSynchedStorage

namespace CSynchedStorage

/-- A typed setter that goes through a located map keeps the object free of
`eSVT_None` tags. -/
theorem noneFree_typed_through_ptr (T : ValueType) (key : TSynchedKey) (value : T.carrier)
    (self1 : CSynchedStorage) (pStorage : TStoragePtr) (storage : TStorage)
    (h1 : noneFree self1 = true) (hder : self1.deref pStorage = some storage) :
    noneFree (self1.write pStorage (fun _ => (setTyped T storage key value).1)) = true :=
  noneFree_write self1 pStorage _ h1
    (fun _ _ => storageNoneFree_setTyped T storage key value
      (storageNoneFree_deref self1 pStorage storage h1 hder))

/-- An untyped setter that goes through a located map and is given a tagged cell
keeps the object free of `eSVT_None` tags. -/
theorem noneFree_untyped_through_ptr (key : TSynchedKey) (value : TSynchedValue)
    (self1 : CSynchedStorage) (pStorage : TStoragePtr) (h1 : noneFree self1 = true)
    (hv : value.GetType ≠ eSVT_None) :
    noneFree (self1.write pStorage (fun storage =>
      StdMap.modify (StdMap.subscript storage key TSynchedValue.empty) key (fun _ => value)))
      = true :=
  noneFree_write self1 pStorage _ h1
    (fun storage hs => storageNoneFree_assign storage key value hs hv)

/-- Every setter call that passes a tagged cell succeeds, with the lazily
creating locators, and keeps the object free of `eSVT_None` tags. -/
theorem noneFree_apply (self : CSynchedStorage) (call : SetterCall)
    (h : noneFree self = true) (ht : call.passesTaggedCell = true) :
    ∃ self2 calls, call.apply self = .ok (self2, calls) ∧ noneFree self2 = true := by
  cases call with
  | SetGlobalValue T key value =>
    refine ⟨(SetGlobalValue self T key value).1, (SetGlobalValue self T key value).2, rfl, ?_⟩
    rw [SetGlobalValue_fst, noneFree_iff]
    rw [noneFree_iff] at h
    exact ⟨storageNoneFree_setTyped T _ key value h.1, h.2⟩
  | SetGlobalValue_TSynchedValue key value =>
    refine ⟨_, _, rfl, ?_⟩
    have hv : value.GetType ≠ eSVT_None := by
      simpa [SetterCall.passesTaggedCell] using ht
    rw [noneFree_iff] at h ⊢
    exact ⟨storageNoneFree_assign _ key value h.1 hv, h.2⟩
  | SetChannelValue T channelId key value =>
    obtain ⟨self1, storage, hloc, hder, _, _⟩ := GetChannelStorage_create self channelId
    have h1 : noneFree self1 = true := by
      have := noneFree_GetChannelStorage self channelId true h
      rwa [hloc] at this
    have hw := noneFree_typed_through_ptr T key value self1 _ storage h1 hder
    simp only [SetterCall.apply, SetChannelValue, hloc, hder]
    rcases hst : setTyped T storage key value with ⟨storage1, _ | cell⟩
    · exact ⟨_, _, rfl, h1⟩
    · rw [hst] at hw
      exact ⟨_, _, rfl, hw⟩
  | SetChannelValue_TSynchedValue channelId key value =>
    obtain ⟨self1, storage, hloc, hder, _, _⟩ := GetChannelStorage_create self channelId
    have h1 : noneFree self1 = true := by
      have := noneFree_GetChannelStorage self channelId true h
      rwa [hloc] at this
    have hv : value.GetType ≠ eSVT_None := by
      simpa [SetterCall.passesTaggedCell] using ht
    simp only [SetterCall.apply, SetChannelValue_TSynchedValue, hloc, hder]
    exact ⟨_, _, rfl, noneFree_untyped_through_ptr key value self1 _ h1 hv⟩
  | SetEntityValue T id key value =>
    obtain ⟨self1, storage, hloc, hder, _, _⟩ := GetEntityStorage_create self id
    have h1 : noneFree self1 = true := by
      have := noneFree_GetEntityStorage self id true h
      rwa [hloc] at this
    have hw := noneFree_typed_through_ptr T key value self1 _ storage h1 hder
    simp only [SetterCall.apply, SetEntityValue, hloc, hder]
    rcases hst : setTyped T storage key value with ⟨storage1, _ | cell⟩
    · exact ⟨_, _, rfl, h1⟩
    · rw [hst] at hw
      exact ⟨_, _, rfl, hw⟩
  | SetEntityValue_TSynchedValue id key value =>
    obtain ⟨self1, storage, hloc, hder, _, _⟩ := GetEntityStorage_create self id
    have h1 : noneFree self1 = true := by
      have := noneFree_GetEntityStorage self id true h
      rwa [hloc] at this
    have hv : value.GetType ≠ eSVT_None := by
      simpa [SetterCall.passesTaggedCell] using ht
    simp only [SetterCall.apply, SetEntityValue_TSynchedValue, hloc, hder]
    exact ⟨_, _, rfl, noneFree_untyped_through_ptr key value self1 _ h1 hv⟩

theorem noneFree_runSetters (calls : List SetterCall) (self : CSynchedStorage)
    (h : noneFree self = true) (ht : ∀ call ∈ calls, call.passesTaggedCell = true) :
    ∃ self2, runSetters self calls = .ok self2 ∧ noneFree self2 = true := by
  induction calls generalizing self with
  | nil => exact ⟨self, rfl, h⟩
  | cons call rest ih =>
    obtain ⟨self1, made, hap, h1⟩ :=
      noneFree_apply self call h (ht call (List.mem_cons_self _ _))
    obtain ⟨self2, hrun, h2⟩ := ih self1 h1 (fun c hc => ht c (List.mem_cons_of_mem _ hc))
    exact ⟨self2, by simp only [runSetters, hap, hrun], h2⟩

/-- C13, as stated, fails: the untyped setters store whatever cell they are
given. The untyped `SetGlobalValue(5, TSynchedValue())` on the fresh object
stores the never-set cell, whose tag is `eSVT_None`; then key 5 is present,
`GetGlobalValueType(5)` is `eSVT_None` all the same, and the untyped
`GetGlobalValue(5)` succeeds with a cell of tag `eSVT_None`. -/
theorem C13_untyped_setter_stores_none_tag :
    runSetters fresh [SetterCall.SetGlobalValue_TSynchedValue 5 TSynchedValue.empty]
        = .ok (SetGlobalValue_TSynchedValue fresh 5 TSynchedValue.empty).1
      ∧ noneFree (SetGlobalValue_TSynchedValue fresh 5 TSynchedValue.empty).1 = false
      ∧ StdMap.find (SetGlobalValue_TSynchedValue fresh 5 TSynchedValue.empty).1.m_globalStorage 5
        = some TSynchedValue.empty
      ∧ GetGlobalValueType (SetGlobalValue_TSynchedValue fresh 5 TSynchedValue.empty).1 5
        = eSVT_None
      ∧ GetGlobalValue_TSynchedValue (SetGlobalValue_TSynchedValue fresh 5 TSynchedValue.empty).1 5
        = some TSynchedValue.empty
      ∧ TSynchedValue.empty.GetType = eSVT_None := by
  refine ⟨rfl, by decide, by decide, by decide, by decide, rfl⟩

/-- C13, amended to untyped calls that are given a tagged cell: every finite
sequence of setter calls (typed and untyped, in any scope, with the lazily
creating locators) in which each untyped call passes a cell with one of the five
tags runs to the end from the object with no entries, and in the object reached
no stored cell carries the tag `eSVT_None`; there `GetGlobalValueType(key)` is
`eSVT_None` exactly when `key` is absent from the global map, and an untyped
`GetGlobalValue(key)` that succeeds returns a cell whose tag is not `eSVT_None`. -/
theorem C13_none_tag_never_stored (pGameFramework : Option IGameFramework)
    (calls : List SetterCall) (ht : ∀ call ∈ calls, call.passesTaggedCell = true) :
    ∃ self, runSetters { fresh with m_pGameFramework := pGameFramework } calls = .ok self
      ∧ noneFree self = true
      ∧ (∀ key, GetGlobalValueType self key = eSVT_None
          ↔ StdMap.find self.m_globalStorage key = none)
      ∧ (∀ key cell, GetGlobalValue_TSynchedValue self key = some cell →
          cell.GetType ≠ eSVT_None) := by
  obtain ⟨self, hrun, hfree⟩ :=
    noneFree_runSetters calls { fresh with m_pGameFramework := pGameFramework } rfl ht
  have hcell : ∀ key cell, StdMap.find self.m_globalStorage key = some cell →
      cell.GetType ≠ eSVT_None := by
    intro key cell hf
    exact (storageNoneFree_iff _).1 ((noneFree_iff self).1 hfree).1 _
      (StdMap.mem_of_find _ key cell hf)
  refine ⟨self, hrun, hfree, fun key => ?_, fun key cell hget => ?_⟩
  · unfold GetGlobalValueType
    cases hf : StdMap.find self.m_globalStorage key with
    | none => simp
    | some cell => simpa using hcell key cell hf
  · unfold GetGlobalValue_TSynchedValue at hget
    cases hf : StdMap.find self.m_globalStorage key with
    | none => simp [hf] at hget
    | some second =>
      simp only [hf, Option.some.injEq] at hget
      rw [← hget]
      exact hcell key second hf

/-- C13 at a concrete sequence: a typed global set, an untyped entity set of a
cell holding 7, a typed channel set. -/
theorem C13_none_tag_never_stored_witness :
    ∃ self, runSetters fresh
        [SetterCall.SetGlobalValue .bool 5 true,
          SetterCall.SetEntityValue_TSynchedValue 99 1 (.int 7),
          SetterCall.SetChannelValue .string 4 2 "ready"] = .ok self
      ∧ noneFree self = true :=
  let ⟨self, hrun, hfree, _, _⟩ := C13_none_tag_never_stored none
    [SetterCall.SetGlobalValue .bool 5 true,
      SetterCall.SetEntityValue_TSynchedValue 99 1 (.int 7),
      SetterCall.SetChannelValue .string 4 2 "ready"]
    (by decide)
  ⟨self, hrun, hfree⟩

end CSynchedStorage

/-! ## C14: a global write touches one global key -/

namespace StdMap

variable {K V : Type}

theorem keys_modify [DecidableEq K] (m : StdMap K V) (key : K) (f : V → V) :
    (modify m key f).map Prod.fst = m.map Prod.fst := by
  induction m with
  | nil => rfl
  | cons e rest ih =>
    obtain ⟨k, v⟩ := e
    by_cases hk : k = key
    · simp [modify, hk]
    · simp [modify, hk, ih]

theorem not_mem_keys_of_find_none [DecidableEq K] (m : StdMap K V) (key : K)
    (h : find m key = none) : key ∉ m.map Prod.fst := by
  induction m with
  | nil => simp
  | cons e rest ih =>
    obtain ⟨k, v⟩ := e
    by_cases hk : k = key
    · simp [find, hk] at h
    · simp only [find, hk, if_false] at h
      simp only [List.map_cons, List.mem_cons, not_or]
      exact ⟨fun e => hk e.symm, ih h⟩

theorem keys_emplace_perm [LT K] [DecidableRel (LT.lt : K → K → Prop)] (m : StdMap K V)
    (key : K) (value : V) :
    List.Perm ((emplace m key value).map Prod.fst) (key :: m.map Prod.fst) := by
  induction m with
  | nil => exact List.Perm.refl _
  | cons e rest ih =>
    obtain ⟨k, v⟩ := e
    by_cases hlt : key < k
    · simp only [emplace, hlt, if_true]
      exact List.Perm.refl _
    · simp only [emplace, hlt, if_false, List.map_cons]
      exact (List.Perm.cons k ih).trans (List.Perm.swap key k _)

/-- The keys stay pairwise different under `m[key]` followed by a write through
the reference. -/
theorem nodup_keys_modify_subscript [DecidableEq K] [LT K]
    [DecidableRel (LT.lt : K → K → Prop)] (m : StdMap K V) (key : K) (dflt : V) (f : V → V)
    (h : (m.map Prod.fst).Nodup) :
    ((modify (subscript m key dflt) key f).map Prod.fst).Nodup := by
  rw [keys_modify]
  unfold subscript
  cases hf : find m key with
  | some v => exact h
  | none =>
    exact (keys_emplace_perm m key dflt).nodup_iff.2
      (List.nodup_cons.2 ⟨not_mem_keys_of_find_none m key hf, h⟩)

end StdMap

namespace CSynchedStorage

theorem nodup_keys_setTyped (T : ValueType) (storage : TStorage) (key : TSynchedKey)
    (value : T.carrier) (h : (storage.map Prod.fst).Nodup) :
    ((setTyped T storage key value).1.map Prod.fst).Nodup := by
  unfold setTyped
  cases hf : StdMap.find storage key with
  | none => exact StdMap.nodup_keys_modify_subscript storage key _ _ h
  | some second =>
    by_cases hd : differs T second value = true
    · simp only [hd, if_true]
      rw [StdMap.keys_modify]
      exact h
    · simp only [hd]
      exact h

theorem find_setTyped_of_ne (T : ValueType) (storage : TStorage) (key other : TSynchedKey)
    (value : T.carrier) (h : other ≠ key) :
    StdMap.find (setTyped T storage key value).1 other = StdMap.find storage other := by
  unfold setTyped
  cases hf : StdMap.find storage key with
  | none =>
    simp [StdMap.find_modify_of_ne _ _ _ _ h, StdMap.find_subscript_of_ne _ _ _ _ h]
  | some second =>
    by_cases hd : differs T second value = true
    · simp [hd, StdMap.find_modify_of_ne _ _ _ _ h]
    · simp [hd]

/-- What every getter and kind query returns is fixed by the lookups it makes:
two objects that agree on a global key agree on the global getters there. -/
theorem global_getters_congr (a b : CSynchedStorage) (key : TSynchedKey)
    (h : StdMap.find a.m_globalStorage key = StdMap.find b.m_globalStorage key) :
    (∀ U, GetGlobalValue a U key = GetGlobalValue b U key)
      ∧ GetGlobalValue_TSynchedValue a key = GetGlobalValue_TSynchedValue b key
      ∧ GetGlobalValueType a key = GetGlobalValueType b key := by
  simp [GetGlobalValue, GetGlobalValue_TSynchedValue, GetGlobalValueType, h]

/-- Two objects with the same channel and entity tiers and the same framework
agree on every channel and entity getter. -/
theorem scoped_getters_congr (a b : CSynchedStorage)
    (hc : a.m_channelStorage = b.m_channelStorage)
    (he : a.m_entityStorage = b.m_entityStorage)
    (hm : a.m_channelStorageMap = b.m_channelStorageMap)
    (hf : a.m_pGameFramework = b.m_pGameFramework) :
    (∀ U key, GetChannelValue_local a U key = GetChannelValue_local b U key)
      ∧ (∀ key, GetChannelValue_local_TSynchedValue a key
          = GetChannelValue_local_TSynchedValue b key)
      ∧ (∀ U channelId key, GetChannelValue a U channelId key = GetChannelValue b U channelId key)
      ∧ (∀ channelId key, GetChannelValue_TSynchedValue a channelId key
          = GetChannelValue_TSynchedValue b channelId key)
      ∧ (∀ U id key, GetEntityValue a U id key = GetEntityValue b U id key)
      ∧ (∀ id key, GetEntityValue_TSynchedValue a id key = GetEntityValue_TSynchedValue b id key)
      ∧ (∀ id key, GetEntityValueType a id key = GetEntityValueType b id key) := by
  simp only [GetChannelValue_local, GetChannelValue_local_TSynchedValue, GetChannelValue,
    GetChannelValue_TSynchedValue, GetEntityValue, GetEntityValue_TSynchedValue,
    GetEntityValueType, netChannelIsLocal, hc, he, hm, hf]
  simp

end CSynchedStorage

namespace CSynchedStorage

/-- C14: a typed or an untyped `SetGlobalValue(key, ...)` leaves unchanged what
every getter and kind query returns at every other global key, and at every key
(`key` included) of `m_channelStorage`, of every channel's map and of every
entity's map; and if the keys of the global map were pairwise different before,
they still are, so each global key has at most one cell. -/
theorem C14_global_write_frame (self : CSynchedStorage) (T : ValueType) (key : TSynchedKey)
    (value : T.carrier) (cell : TSynchedValue) (self2 : CSynchedStorage)
    (h2 : self2 = (SetGlobalValue self T key value).1
      ∨ self2 = (SetGlobalValue_TSynchedValue self key cell).1) :
    (∀ other, other ≠ key →
        (∀ U, GetGlobalValue self2 U other = GetGlobalValue self U other)
        ∧ GetGlobalValue_TSynchedValue self2 other = GetGlobalValue_TSynchedValue self other
        ∧ GetGlobalValueType self2 other = GetGlobalValueType self other)
      ∧ ((∀ U k, GetChannelValue_local self2 U k = GetChannelValue_local self U k)
        ∧ (∀ k, GetChannelValue_local_TSynchedValue self2 k
            = GetChannelValue_local_TSynchedValue self k)
        ∧ (∀ U channelId k, GetChannelValue self2 U channelId k
            = GetChannelValue self U channelId k)
        ∧ (∀ channelId k, GetChannelValue_TSynchedValue self2 channelId k
            = GetChannelValue_TSynchedValue self channelId k)
        ∧ (∀ U id k, GetEntityValue self2 U id k = GetEntityValue self U id k)
        ∧ (∀ id k, GetEntityValue_TSynchedValue self2 id k
            = GetEntityValue_TSynchedValue self id k)
        ∧ (∀ id k, GetEntityValueType self2 id k = GetEntityValueType self id k))
      ∧ ((self.m_globalStorage.map Prod.fst).Nodup →
          (self2.m_globalStorage.map Prod.fst).Nodup) := by
  rcases h2 with h2 | h2
  · rw [SetGlobalValue_fst] at h2
    subst h2
    refine ⟨fun other hne => ?_, ?_, fun hnd => ?_⟩
    · exact global_getters_congr _ self other (find_setTyped_of_ne T _ key other value hne)
    · exact scoped_getters_congr _ self rfl rfl rfl rfl
    · exact nodup_keys_setTyped T _ key value hnd
  · subst h2
    refine ⟨fun other hne => ?_, ?_, fun hnd => ?_⟩
    · refine global_getters_congr _ self other ?_
      simp [SetGlobalValue_TSynchedValue, StdMap.find_modify_of_ne _ _ _ _ hne,
        StdMap.find_subscript_of_ne _ _ _ _ hne]
    · exact scoped_getters_congr _ self rfl rfl rfl rfl
    · exact StdMap.nodup_keys_modify_subscript self.m_globalStorage key _ _ hnd

/-- C14 at concrete inputs: after the typed `SetGlobalValue(2, 7)` on the sample
object, global key 5 still reads `true`, key 2 of `m_channelStorage` still reads
"ready" (also through the local channel 4), key 1 of entity 99 still reads 7, and
the global keys are pairwise different. -/
theorem C14_global_write_frame_witness :
    GetGlobalValue (SetGlobalValue sample .int 2 7).1 .bool 5 = GetGlobalValue sample .bool 5
      ∧ GetChannelValue_local (SetGlobalValue sample .int 2 7).1 .string 2
        = GetChannelValue_local sample .string 2
      ∧ GetChannelValue (SetGlobalValue sample .int 2 7).1 .string 4 2
        = GetChannelValue sample .string 4 2
      ∧ GetEntityValue (SetGlobalValue sample .int 2 7).1 .int 99 2
        = GetEntityValue sample .int 99 2
      ∧ ((SetGlobalValue sample .int 2 7).1.m_globalStorage.map Prod.fst).Nodup :=
  have h := C14_global_write_frame sample .int 2 7 TSynchedValue.empty
    (SetGlobalValue sample .int 2 7).1 (Or.inl rfl)
  ⟨(h.1 5 (by decide)).1 .bool, h.2.1.1 .string 2, h.2.1.2.2.1 .string 4 2,
    h.2.1.2.2.2.2.1 .int 99 2, h.2.2 (by decide)⟩

end CSynchedStorage

/-! ## C15 and C16: channels with a map, channels without storage -/

namespace CSynchedStorage

/-- C15: where `channelId` has an entry in `m_channelStorageMap`, both
`GetChannelValue` overloads with a channel id return the lookup of `key` in that
entry's map (for the typed overload, the payload if the tag is that of `T`):
"absent" when the map has no entry for `key` or, typed, the tag differs. The
result is the same for every content of `m_channelStorage` and every framework
pointer, so neither the local map nor the transport has a say. -/
theorem C15_fallback_only_without_map (self : CSynchedStorage) (T : ValueType)
    (channelId : Int) (key : TSynchedKey) (storage : TStorage)
    (h : StdMap.find self.m_channelStorageMap channelId = some storage) :
    GetChannelValue self T channelId key
        = .ok ((StdMap.find storage key).bind (TSynchedValue.GetPtr T))
      ∧ GetChannelValue_TSynchedValue self channelId key = .ok (StdMap.find storage key)
      ∧ (StdMap.find storage key = none →
          GetChannelValue self T channelId key = .ok none
          ∧ GetChannelValue_TSynchedValue self channelId key = .ok none)
      ∧ (∀ cell, StdMap.find storage key = some cell → cell.GetType ≠ T.IndexOf →
          GetChannelValue self T channelId key = .ok none)
      ∧ (∀ (channelStorage2 : TStorage) (pGameFramework2 : Option IGameFramework),
          GetChannelValue
              { self with m_channelStorage := channelStorage2, m_pGameFramework := pGameFramework2 }
              T channelId key
            = GetChannelValue self T channelId key
          ∧ GetChannelValue_TSynchedValue
              { self with m_channelStorage := channelStorage2, m_pGameFramework := pGameFramework2 }
              channelId key
            = GetChannelValue_TSynchedValue self channelId key) := by
  have htyped : GetChannelValue self T channelId key
      = .ok ((StdMap.find storage key).bind (TSynchedValue.GetPtr T)) := by
    simp only [GetChannelValue, h]
    cases StdMap.find storage key with
    | none => rfl
    | some second => cases hp : second.GetPtr T <;> simp [hp]
  have huntyped : GetChannelValue_TSynchedValue self channelId key
      = .ok (StdMap.find storage key) := by
    simp only [GetChannelValue_TSynchedValue, h]
    cases StdMap.find storage key <;> rfl
  refine ⟨htyped, huntyped, fun hk => ?_, fun cell hc ht => ?_, fun cs2 fw2 => ?_⟩
  · rw [htyped, huntyped, hk]
    exact ⟨rfl, rfl⟩
  · rw [htyped, hc]
    simp [TSynchedValue.GetPtr_of_GetType_ne_IndexOf cell T ht]
  · rw [htyped, huntyped]
    constructor
    · simp only [GetChannelValue, h]
      cases StdMap.find storage key with
      | none => rfl
      | some second => cases hp : second.GetPtr T <;> simp [hp]
    · simp only [GetChannelValue_TSynchedValue, h]
      cases StdMap.find storage key <;> rfl

/-- C15 at concrete inputs: channel 4, which the sample transport reports local,
is given a map of its own without key 2; `m_channelStorage` holds "ready" under
key 2, and `GetChannelValue(4, 2)` fails all the same. -/
theorem C15_fallback_only_without_map_witness :
    GetChannelValue { sample with m_channelStorageMap := [(4, [(3, .int 1)])] } .string 4 2
        = .ok none
      ∧ GetChannelValue_TSynchedValue { sample with m_channelStorageMap := [(4, [(3, .int 1)])] }
          4 2 = .ok none
      ∧ GetChannelValue_local { sample with m_channelStorageMap := [(4, [(3, .int 1)])] }
          .string 2 = some "ready" :=
  have h := (C15_fallback_only_without_map
    { sample with m_channelStorageMap := [(4, [(3, .int 1)])] } .string 4 2 [(3, .int 1)]
    (by decide)).2.2.1 (by decide)
  ⟨h.1, h.2, by decide⟩

/-- C16: if the locator `GetChannelStorage(channelId, true)` returns the null
pointer, both `SetChannelValue` overloads return at once: they make no hook call
and the object is as the locator call left it, so unchanged in every tier when
the locator changed nothing. -/
theorem C16_channel_write_without_storage (getChannelStorage : Locator Int)
    (self self1 : CSynchedStorage) (T : ValueType) (channelId : Int) (key : TSynchedKey)
    (value : T.carrier) (cell : TSynchedValue)
    (h : getChannelStorage self channelId true = (self1, none)) :
    SetChannelValue getChannelStorage self T channelId key value = .ok (self1, [])
      ∧ SetChannelValue_TSynchedValue getChannelStorage self channelId key cell = .ok (self1, [])
      ∧ (self1 = self →
          SetChannelValue getChannelStorage self T channelId key value = .ok (self, [])
          ∧ SetChannelValue_TSynchedValue getChannelStorage self channelId key cell
            = .ok (self, [])) := by
  have h1 : SetChannelValue getChannelStorage self T channelId key value = .ok (self1, []) := by
    simp only [SetChannelValue, h]
  have h2 : SetChannelValue_TSynchedValue getChannelStorage self channelId key cell
      = .ok (self1, []) := by
    simp only [SetChannelValue_TSynchedValue, h]
  refine ⟨h1, h2, fun he => ?_⟩
  rw [h1, h2, he]
  exact ⟨rfl, rfl⟩

/-- C16 at concrete inputs: with a locator that yields no map, both overloads
leave the sample object as it is and make no hook call. -/
theorem C16_channel_write_without_storage_witness :
    SetChannelValue noChannelStorage sample .string 4 2 "ready" = .ok (sample, [])
      ∧ SetChannelValue_TSynchedValue noChannelStorage sample 4 2 (.string "ready")
        = .ok (sample, []) :=
  (C16_channel_write_without_storage noChannelStorage sample sample .string 4 2 "ready"
    (.string "ready") rfl).2.2 rfl

end CSynchedStorage

/-! ## C17: the typed and the untyped global setter on the stored state -/

namespace StdMap

variable {K V : Type}

theorem modify_const_of_find [DecidableEq K] (m : StdMap K V) (key : K) (v : V)
    (h : find m key = some v) : modify m key (fun _ => v) = m := by
  induction m with
  | nil => rfl
  | cons e rest ih =>
    obtain ⟨k, w⟩ := e
    by_cases hk : k = key
    · simp only [find, hk, if_true, Option.some.injEq] at h
      simp [modify, hk, h]
    · simp only [find, hk, if_false] at h
      simp [modify, hk, ih h]

end StdMap

namespace CSynchedStorage

theorem Set_fun_eq (T : ValueType) (value : T.carrier) :
    (fun c : TSynchedValue => c.Set T value) = (fun _ => TSynchedValue.empty.Set T value) :=
  funext (fun c => TSynchedValue.Set_eq c T value)

/-- Where the typed setter writes, it leaves the object the untyped setter leaves
when given a cell holding the value, and makes the same hook call. -/
theorem SetGlobalValue_eq_untyped_of_write (self : CSynchedStorage) (T : ValueType)
    (key : TSynchedKey) (value : T.carrier)
    (h : ∀ second, StdMap.find self.m_globalStorage key = some second →
      differs T second value = true) :
    SetGlobalValue self T key value
      = SetGlobalValue_TSynchedValue self key (TSynchedValue.empty.Set T value) := by
  unfold SetGlobalValue SetGlobalValue_TSynchedValue
  cases hf : StdMap.find self.m_globalStorage key with
  | none => simp only [Set_fun_eq]
  | some second =>
    simp only [h second hf, if_true, Set_fun_eq, TSynchedValue.Set_eq second,
      StdMap.subscript_of_find_some _ key TSynchedValue.empty second hf]

/-- Where the key already holds the cell with the value, the untyped setter
leaves the object as it is. -/
theorem SetGlobalValue_TSynchedValue_fst_of_held (self : CSynchedStorage) (key : TSynchedKey)
    (cell : TSynchedValue) (h : StdMap.find self.m_globalStorage key = some cell) :
    (SetGlobalValue_TSynchedValue self key cell).1 = self := by
  simp only [SetGlobalValue_TSynchedValue,
    StdMap.subscript_of_find_some _ key TSynchedValue.empty cell h,
    StdMap.modify_const_of_find _ key cell h]

theorem eq_Set_of_not_differs (T : ValueType) (hT : T ≠ .float) (second : TSynchedValue)
    (value : T.carrier) (hd : differs T second value = false) :
    second = TSynchedValue.empty.Set T value := by
  unfold differs at hd
  cases hp : second.GetPtr T with
  | none => simp [hp] at hd
  | some p =>
    simp only [hp] at hd
    rw [TSynchedValue.eq_Set_of_GetPtr second T p hp,
      (ValueType.ne_eq_false_iff T hT p value).1 hd]

/-- C17, as stated, fails for `float`: with `-0.0f` under key 5, the typed
`SetGlobalValue(5, 0.0f)` writes nothing (`-0.0f != 0.0f` is false) and the map
keeps `-0.0f`, while the untyped `SetGlobalValue(5, cell holding 0.0f)` stores
`0.0f`. -/
theorem C17_typed_keeps_negative_zero :
    (SetGlobalValue { fresh with m_globalStorage := [(5, .float float32.negZero)] }
        .float 5 float32.posZero).1.m_globalStorage = [(5, .float float32.negZero)]
      ∧ (SetGlobalValue_TSynchedValue
          { fresh with m_globalStorage := [(5, .float float32.negZero)] }
          5 (TSynchedValue.empty.Set .float float32.posZero)).1.m_globalStorage
        = [(5, .float float32.posZero)]
      ∧ (SetGlobalValue { fresh with m_globalStorage := [(5, .float float32.negZero)] }
          .float 5 float32.posZero).1.m_globalStorage
        ≠ (SetGlobalValue_TSynchedValue
            { fresh with m_globalStorage := [(5, .float float32.negZero)] }
            5 (TSynchedValue.empty.Set .float float32.posZero)).1.m_globalStorage := by
  refine ⟨by decide, by decide, by decide⟩

/-- C17, amended for `float`: the object after the typed
`SetGlobalValue(key, value)` equals the object after the untyped
`SetGlobalValue(key, cell holding value)` for every value of type `bool`, `int`,
`EntityId` and `string`, and for a `float` whenever the typed setter writes
(`key` absent, other tag held, or payload held unequal under `!=`) or `key`
already holds the cell with that value. In these cases the typed setter makes
either no hook call or exactly the hook call of the untyped one. -/
theorem C17_typed_untyped_same_state (self : CSynchedStorage) (T : ValueType)
    (key : TSynchedKey) (value : T.carrier)
    (h : T ≠ .float
      ∨ ∀ second, StdMap.find self.m_globalStorage key = some second →
          differs T second value = true ∨ second = TSynchedValue.empty.Set T value) :
    (SetGlobalValue self T key value).1
        = (SetGlobalValue_TSynchedValue self key (TSynchedValue.empty.Set T value)).1
      ∧ ((SetGlobalValue self T key value).2 = []
        ∨ (SetGlobalValue self T key value).2
          = (SetGlobalValue_TSynchedValue self key (TSynchedValue.empty.Set T value)).2) := by
  have hcase : ∀ second, StdMap.find self.m_globalStorage key = some second →
      differs T second value = true ∨ second = TSynchedValue.empty.Set T value := by
    intro second hf
    rcases h with hT | hall
    · cases hd : differs T second value with
      | true => exact Or.inl rfl
      | false => exact Or.inr (eq_Set_of_not_differs T hT second value hd)
    · exact hall second hf
  by_cases hw : ∀ second, StdMap.find self.m_globalStorage key = some second →
      differs T second value = true
  · rw [SetGlobalValue_eq_untyped_of_write self T key value hw]
    exact ⟨rfl, Or.inr rfl⟩
  · simp only [not_forall] at hw
    obtain ⟨second, hf, hd⟩ := hw
    have hd2 : differs T second value = false := by simpa using hd
    have hheld : second = TSynchedValue.empty.Set T value := by
      rcases hcase second hf with h1 | h1
      · rw [h1] at hd2; cases hd2
      · exact h1
    rw [SetGlobalValue_of_not_differs self T key value second hf hd2]
    rw [← hheld, SetGlobalValue_TSynchedValue_fst_of_held self key second hf]
    exact ⟨rfl, Or.inl rfl⟩

/-- C17 at concrete inputs: `7 : int` over the `true` of global key 5 of the
sample object (the typed setter writes), and `3.14f` over `3.14f`. -/
theorem C17_typed_untyped_same_state_witness :
    (SetGlobalValue sample .int 5 7).1 = (SetGlobalValue_TSynchedValue sample 5 (.int 7)).1
      ∧ (SetGlobalValue { fresh with m_globalStorage := [(5, .float float32.pi314)] }
          .float 5 float32.pi314).1
        = (SetGlobalValue_TSynchedValue
            { fresh with m_globalStorage := [(5, .float float32.pi314)] }
            5 (.float float32.pi314)).1 :=
  ⟨(C17_typed_untyped_same_state sample .int 5 7 (Or.inl (by decide))).1,
    (C17_typed_untyped_same_state { fresh with m_globalStorage := [(5, .float float32.pi314)] }
      .float 5 float32.pi314
      (Or.inr (fun second hs => Or.inr (by
        simp [fresh, StdMap.find] at hs
        rw [← hs]
        rfl)))).1⟩

end CSynchedStorage

/-! ## C18 and C19: `HTTP::URLEncode` -/

namespace HTTP

set_option maxRecDepth 100000 in
/-- What one round of the loop appends is the piece of the byte. -/
theorem step_eq_encodedPiece : ∀ (charIsSigned : Bool) (ch : Byte),
    (if (charValue charIsSigned ch ≥ 97 ∧ charValue charIsSigned ch ≤ 122)
          ∨ (charValue charIsSigned ch ≥ 65 ∧ charValue charIsSigned ch ≤ 90)
          ∨ (charValue charIsSigned ch ≥ 48 ∧ charValue charIsSigned ch ≤ 57)
          ∨ charValue charIsSigned ch = 46 ∨ charValue charIsSigned ch = 45
          ∨ charValue charIsSigned ch = 95 then
        [ch]
      else
        [(37 : Byte), HexDigitToChar ((ch.val >>> 4 : Nat) : Int),
          HexDigitToChar ((ch.val &&& 0xF : Nat) : Int)])
      = encodedPiece ch := by
  decide

theorem foldl_eq_append (charIsSigned : Bool) (text acc : List Byte) :
    text.foldl (fun result ch =>
      let c := charValue charIsSigned ch
      if (c ≥ 97 ∧ c ≤ 122) ∨ (c ≥ 65 ∧ c ≤ 90) ∨ (c ≥ 48 ∧ c ≤ 57)
          ∨ c = 46 ∨ c = 45 ∨ c = 95 then
        result ++ [ch]
      else
        let code : Nat := ch.val
        ((result ++ [(37 : Byte)]) ++ [HexDigitToChar ((code >>> 4 : Nat) : Int)])
          ++ [HexDigitToChar ((code &&& 0xF : Nat) : Int)]) acc
      = acc ++ text.flatMap encodedPiece := by
  induction text generalizing acc with
  | nil => simp
  | cons ch rest ih =>
    rw [List.foldl_cons, ih, List.flatMap_cons, ← step_eq_encodedPiece charIsSigned ch]
    by_cases h : (charValue charIsSigned ch ≥ 97 ∧ charValue charIsSigned ch ≤ 122)
        ∨ (charValue charIsSigned ch ≥ 65 ∧ charValue charIsSigned ch ≤ 90)
        ∨ (charValue charIsSigned ch ≥ 48 ∧ charValue charIsSigned ch ≤ 57)
        ∨ charValue charIsSigned ch = 46 ∨ charValue charIsSigned ch = 45
        ∨ charValue charIsSigned ch = 95
    · simp only [if_pos h, List.append_assoc, List.singleton_append]
    · simp only [if_neg h, List.append_assoc, List.singleton_append, List.cons_append,
        List.nil_append]

theorem URLEncode_eq_format (charIsSigned : Bool) (s : List Byte) :
    URLEncode charIsSigned s = URLEncodeFormat s := by
  unfold URLEncode URLEncodeFormat
  rw [foldl_eq_append]
  rfl

theorem isUnreserved_upperHexDigit : ∀ n : Fin 16, isUnreserved (upperHexDigit n.val) = true := by
  decide

theorem encodedPiece_chars (b c : Byte) (h : c ∈ encodedPiece b) :
    isUnreserved c = true ∨ c = Fin.ofNat '%'.toNat := by
  unfold encodedPiece at h
  by_cases hb : isUnreserved b = true
  · rw [if_pos hb, List.mem_singleton] at h
    exact Or.inl (by rw [h]; exact hb)
  · rw [if_neg hb] at h
    simp only [List.mem_cons, List.mem_singleton, List.not_mem_nil, or_false] at h
    cases h with
    | inl h1 => exact Or.inr h1
    | inr h2 =>
      cases h2 with
      | inl h3 =>
        exact Or.inl (by rw [h3]; exact isUnreserved_upperHexDigit ⟨b.val / 16, by omega⟩)
      | inr h4 =>
        exact Or.inl (by rw [h4]; exact isUnreserved_upperHexDigit ⟨b.val % 16, by omega⟩)

theorem encodedPiece_length (b : Byte) :
    (encodedPiece b).length = 1 + 2 * (if isUnreserved b = true then 0 else 1) := by
  unfold encodedPiece
  by_cases hb : isUnreserved b = true <;> simp [hb]

theorem URLEncodeFormat_length (s : List Byte) :
    (URLEncodeFormat s).length = s.length + 2 * s.countP (fun b => !isUnreserved b) := by
  unfold URLEncodeFormat
  induction s with
  | nil => rfl
  | cons b rest ih =>
    rw [List.flatMap_cons, List.length_append, ih, encodedPiece_length, List.length_cons,
      List.countP_cons]
    by_cases hb : isUnreserved b = true
    · simp [hb]
      omega
    · simp [hb]
      omega

/-- C18: for either signedness of `char` and every byte string `s`,
`URLEncode(s)` is the concatenation, in order, of one piece per byte: an
unreserved byte (`a`..`z`, `A`..`Z`, `0`..`9`, `.`, `-`, `_`) as it is, any other
byte, those from 128 on included, as `%` and the two upper-case hexadecimal
digits of its unsigned value, high nibble first. So every output character is
unreserved or `%`, and the output has the length of `s` plus twice the number of
bytes of `s` that are not unreserved. -/
theorem C18_URLEncode_output_format (charIsSigned : Bool) (s : List Byte) :
    URLEncode charIsSigned s = s.flatMap encodedPiece
      ∧ (∀ c ∈ URLEncode charIsSigned s, isUnreserved c = true ∨ c = Fin.ofNat '%'.toNat)
      ∧ (URLEncode charIsSigned s).length
        = s.length + 2 * s.countP (fun b => !isUnreserved b) := by
  have hfmt := URLEncode_eq_format charIsSigned s
  refine ⟨hfmt, fun c hc => ?_, ?_⟩
  · rw [hfmt] at hc
    obtain ⟨b, _, hcb⟩ := List.mem_flatMap.1 hc
    exact encodedPiece_chars b c hcb
  · rw [hfmt]
    exact URLEncodeFormat_length s

/-- C18 at a concrete input: the bytes of `a b_` followed by the byte 200 encode
to the bytes of `a%20b_%C8`, of length 5 + 2 * 2. -/
theorem C18_URLEncode_output_format_witness :
    URLEncode true [97, 32, 98, 95, 200] = [97, 37, 50, 48, 98, 95, 37, 67, 56]
      ∧ (URLEncode true [97, 32, 98, 95, 200]).length = 5 + 2 * 2 :=
  ⟨(C18_URLEncode_output_format true [97, 32, 98, 95, 200]).1.trans (by decide),
    (C18_URLEncode_output_format true [97, 32, 98, 95, 200]).2.2.trans (by decide)⟩

theorem upperHexDigit_injective : ∀ i j : Fin 16,
    upperHexDigit i.val = upperHexDigit j.val → i = j := by
  decide

theorem isUnreserved_percent : isUnreserved (Fin.ofNat '%'.toNat) = false := by
  decide

theorem encodedPiece_append_inj (a b : Byte) (X Y : List Byte)
    (h : encodedPiece a ++ X = encodedPiece b ++ Y) : a = b ∧ X = Y := by
  unfold encodedPiece at h
  by_cases ha : isUnreserved a = true
  · by_cases hb : isUnreserved b = true
    · rw [if_pos ha, if_pos hb] at h
      simp only [List.singleton_append, List.cons.injEq] at h
      exact h
    · rw [if_pos ha, if_neg hb] at h
      simp only [List.singleton_append, List.cons_append, List.cons.injEq] at h
      rw [h.1, isUnreserved_percent] at ha
      cases ha
  · by_cases hb : isUnreserved b = true
    · rw [if_neg ha, if_pos hb] at h
      simp only [List.singleton_append, List.cons_append, List.cons.injEq] at h
      rw [← h.1, isUnreserved_percent] at hb
      cases hb
    · rw [if_neg ha, if_neg hb] at h
      simp only [List.cons_append, List.nil_append, List.cons.injEq, true_and] at h
      obtain ⟨hhi, hlo, hXY⟩ := h
      have h1 := upperHexDigit_injective ⟨a.val / 16, by omega⟩ ⟨b.val / 16, by omega⟩ hhi
      have h2 := upperHexDigit_injective ⟨a.val % 16, by omega⟩ ⟨b.val % 16, by omega⟩ hlo
      have h3 : a.val / 16 = b.val / 16 := congrArg Fin.val h1
      have h4 : a.val % 16 = b.val % 16 := congrArg Fin.val h2
      exact ⟨Fin.ext (by omega), hXY⟩

theorem encodedPiece_ne_nil (b : Byte) : encodedPiece b ≠ [] := by
  unfold encodedPiece
  by_cases hb : isUnreserved b = true <;> simp [hb]

theorem URLEncodeFormat_injective (s t : List Byte)
    (h : URLEncodeFormat s = URLEncodeFormat t) : s = t := by
  unfold URLEncodeFormat at h
  induction s generalizing t with
  | nil =>
    cases t with
    | nil => rfl
    | cons b rest =>
      rw [List.flatMap_nil, List.flatMap_cons] at h
      exact absurd (List.append_eq_nil.1 h.symm).1 (encodedPiece_ne_nil b)
  | cons a rest ih =>
    cases t with
    | nil =>
      rw [List.flatMap_nil, List.flatMap_cons] at h
      exact absurd (List.append_eq_nil.1 h).1 (encodedPiece_ne_nil a)
    | cons b rest2 =>
      rw [List.flatMap_cons, List.flatMap_cons] at h
      obtain ⟨hab, hrest⟩ := encodedPiece_append_inj a b _ _ h
      rw [hab, ih rest2 hrest]

/-- C19: for either signedness of `char`, `URLEncode` is injective: two byte
strings with the same encoding are the same byte string. -/
theorem C19_URLEncode_injective (charIsSigned : Bool) (s t : List Byte)
    (h : URLEncode charIsSigned s = URLEncode charIsSigned t) : s = t := by
  rw [URLEncode_eq_format, URLEncode_eq_format] at h
  exact URLEncodeFormat_injective s t h

/-- C19 at concrete inputs: the byte strings `a b` and `a%20b`, which look alike
once the first is encoded, have different encodings. -/
theorem C19_URLEncode_injective_witness :
    (URLEncode true [97, 32, 98] = URLEncode true [97, 32, 98] ∧ ([97, 32, 98] : List Byte)
        = [97, 32, 98])
      ∧ URLEncode true [97, 32, 98] ≠ URLEncode true [97, 37, 50, 48, 98] :=
  ⟨⟨rfl, C19_URLEncode_injective true [97, 32, 98] [97, 32, 98] rfl⟩,
    fun h => absurd (C19_URLEncode_injective true [97, 32, 98] [97, 37, 50, 48, 98] h)
      (by decide)⟩

end HTTP

end CryMP
